import Mathlib

set_option maxHeartbeats 1000000

/- Shallow embedding of TopQuarkAnalysis/TopEventProducers/src/PseudoTopProducer.cc.

The event-processing framework and the fastjet clustering library are external
collaborators: clustering is modelled as a black-box function from an input list
of (user index, four-momentum) pairs to a list of pseudo-jet clusters, and the
irrational floating-point kinematics (pt, |p|, invariant mass of a four-vector)
are modelled as abstract evaluation functions supplied to produce.  Double
values that the code tests with std::isnan are modelled by DV, which carries
NaN and positive infinity beside finite rational values.  Both particle
handles of the producer read the same event-particle universe, so a single
indexed particle list serves as both collections. -/

namespace PseudoTop

/-- Double value as stored by the framework: NaN, positive infinity, or a
finite value modelled by an exact rational. -/
inductive DV where
  | nan : DV
  | inf : DV
  | val : ℚ → DV
deriving DecidableEq

/-- Comparison a > b on doubles; every comparison involving NaN is false. -/
def gtDV : DV → DV → Bool
  | DV.nan, _ => false
  | DV.inf, DV.nan => false
  | DV.inf, DV.inf => false
  | DV.inf, DV.val _ => true
  | DV.val _, DV.nan => false
  | DV.val _, DV.inf => false
  | DV.val a, DV.val b => decide (b < a)

/-- The pre-clustering filter of produce: std::isnan(pt) or pt <= 0.  NaN is
caught by isnan; positive infinity fails both tests and passes the filter. -/
def badPtDV : DV → Bool
  | DV.nan => true
  | DV.inf => false
  | DV.val x => decide (x ≤ 0)

/-- Rank of a double inside the order used by pt comparisons; only meaningful
for non-NaN values. -/
def rank : DV → WithTop ℚ
  | DV.nan => ⊤
  | DV.inf => ⊤
  | DV.val q => (q : WithTop ℚ)

/-- Four-momentum with exact rational components. -/
structure V4 where
  px : ℚ
  py : ℚ
  pz : ℚ
  en : ℚ
deriving DecidableEq

/-- Componentwise sum of four-momenta (the p4() + p4() of the source). -/
def vadd (a b : V4) : V4 := ⟨a.px + b.px, a.py + b.py, a.pz + b.pz, a.en + b.en⟩

/-- Scalar rescaling of a four-momentum (ghost scaling). -/
def vscale (s : ℚ) (a : V4) : V4 := ⟨s * a.px, s * a.py, s * a.pz, s * a.en⟩

/-- Input candidate record (reco::Candidate); mother and daughter links are
indices into the shared event particle list. -/
structure Cand where
  p4 : V4
  charge : ℤ
  pdgId : ℤ
  status : ℤ
  mothers : List ℕ
  daughters : List ℕ
deriving DecidableEq

/-- Default candidate used to model dereferencing of an index assumed valid. -/
def cand0 : Cand := ⟨⟨0, 0, 0, 0⟩, 0, 0, 0, [], []⟩

/-- Absolute species code, abs(pdgId()). -/
def absPdg (p : Cand) : ℕ := p.pdgId.natAbs

/-- PseudoTopProducer::isBHadron(const unsigned int): species-code digit test
for bottom-flavoured hadrons. -/
def isBHadronCode (absPdgId : ℕ) : Bool :=
  if absPdgId ≤ 100 then false
  else if 1000000000 ≤ absPdgId then false
  else
    let nq3 := (absPdgId / 10) % 10
    let nq2 := (absPdgId / 100) % 10
    let nq1 := (absPdgId / 1000) % 10
    if nq3 = 0 then false
    else if nq1 = 0 ∧ nq2 = 5 then true
    else if nq1 = 5 then true
    else false

/-- PseudoTopProducer::isBHadron(const reco::Candidate*): the digit test holds
for the particle and for none of its direct daughters. -/
def isBHadronCand (ps : List Cand) (p : Cand) : Bool :=
  isBHadronCode (absPdg p) &&
    p.daughters.all (fun di => ! isBHadronCode (absPdg (ps.getD di cand0)))

/-- First loop of produce: indices of non-stable particles passing the b-hadron
test, in ascending index order (the iteration order of the std::set). -/
def bHadronIdxsOf (ps : List Cand) : List ℕ :=
  (List.range ps.length).filter (fun i =>
    let p := ps.getD i cand0
    decide (p.status ≠ 1) && isBHadronCand ps p)

/-- PseudoTopProducer::isFromHadron, with fuel bounding the recursion through
the (physically acyclic) mother links; a mother without mothers is treated as
the incident beam and skipped. -/
def isFromHadron (ps : List Cand) : ℕ → Cand → Bool
  | 0, _ => false
  | fuel + 1, p =>
    p.mothers.any (fun mi =>
      let m := ps.getD mi cand0
      if m.mothers.isEmpty then false
      else if 100 < absPdg m then true
      else isFromHadron ps fuel m)

/-- Shared gate of the stable-particle classification loop: status 1, at least
one mother, the first mother not an incident-beam (status 4) particle, and not
descended from a hadron. -/
def classGate (ps : List Cand) (p : Cand) : Bool :=
  decide (p.status = 1) &&
    !p.mothers.isEmpty &&
    (match p.mothers with
     | [] => false
     | m :: _ => decide ((ps.getD m cand0).status ≠ 4)) &&
    ! isFromHadron ps ps.length p

/-- Indices routed to lepton dressing: stable electrons, muons and photons. -/
def leptonIdxsOf (ps : List Cand) : List ℕ :=
  (List.range ps.length).filter (fun i =>
    let p := ps.getD i cand0
    classGate ps p &&
      (decide (absPdg p = 11) || decide (absPdg p = 13) || decide (absPdg p = 22)))

/-- Output particle record (the reco::GenParticle values built by produce). -/
structure GenP where
  charge : ℚ
  p4 : V4
  pdgId : ℤ
  status : ℤ
  mothers : List ℕ
  daughters : List ℕ
deriving DecidableEq

/-- Default output particle. -/
def g0 : GenP := ⟨0, ⟨0, 0, 0, 0⟩, 0, 0, [], []⟩

/-- Output copy of a stable neutrino candidate. -/
def mkNuOut (p : Cand) : GenP := ⟨(p.charge : ℚ), p.p4, p.pdgId, p.status, [], []⟩

/-- Neutrino collection before sorting: stable neutrinos passing the
classification gate, in index order. -/
def nuRawOf (ps : List Cand) : List GenP :=
  ((List.range ps.length).filter (fun i =>
    let p := ps.getD i cand0
    classGate ps p &&
      (decide (absPdg p = 12) || decide (absPdg p = 14) ||
        decide (absPdg p = 16)))).map (fun i => mkNuOut (ps.getD i cand0))

/-- Ordered insertion of x in front of the first element it may precede. -/
def insertGe {α : Type} (le : α → α → Bool) (x : α) : List α → List α
  | [] => [x]
  | y :: ys => if le x y then x :: y :: ys else y :: insertGe le x ys

/-- Comparison sort modelling std::sort under the given precedes-test. -/
def sortBy {α : Type} (le : α → α → Bool) (l : List α) : List α :=
  l.foldr (insertGe le) []

/-- Precedes-test induced by the GreaterByPt comparator: a may precede b when
b is not strictly greater in pt. -/
def nuLe (ptOf : V4 → DV) (a b : GenP) : Bool := ! gtDV (ptOf b.p4) (ptOf a.p4)

/-- Sorted neutrino output collection. -/
def neutrinosOf (ptOf : V4 → DV) (ps : List Cand) : List GenP :=
  sortBy (nuLe ptOf) (nuRawOf ps)

/-- Input list of the lepton clustering: (index, four-momentum) of the lepton
and photon candidates passing the NaN / non-positive pt filter. -/
def fjLepInputsOf (ptOf : V4 → DV) (ps : List Cand) : List (ℕ × V4) :=
  (leptonIdxsOf ps).filterMap (fun i =>
    let p := ps.getD i cand0
    if badPtDV (ptOf p.p4) then none else some (i, p.p4))

/-- Pseudo-jet returned by the clustering black box: four-momentum, the eta
and area evaluated by the library, and the pt-ordered constituent indices. -/
structure Cluster where
  p4 : V4
  eta : ℚ
  area : ℚ
  hasArea : Bool
  constituents : List ℕ
deriving DecidableEq

/-- Charged-lepton constituent test: |pdgId| is 11 or 13. -/
def isLepId (ps : List Cand) (i : ℕ) : Bool :=
  decide (absPdg (ps.getD i cand0) = 11) || decide (absPdg (ps.getD i cand0) = 13)

/-- One step of the representative selection: a lepton constituent replaces
the running candidate unless the running candidate is strictly greater in pt. -/
def repStep (ptOf : V4 → DV) (ps : List Cand) (acc : Option ℕ) (i : ℕ) :
    Option ℕ :=
  if isLepId ps i then
    match acc with
    | none => some i
    | some a =>
      if gtDV (ptOf (ps.getD a cand0).p4) (ptOf (ps.getD i cand0).p4) then acc
      else some i
  else acc

/-- Representative selection over a cluster's constituents: the running
candidate survives only when strictly greater in pt, so a later constituent of
equal pt replaces it. -/
def chooseRep (ptOf : V4 → DV) (ps : List Cand) (cs : List ℕ) : Option ℕ :=
  cs.foldl (repStep ptOf ps) none

/-- Clusters surviving the eta cut and holding a charged-lepton constituent;
exactly these produce dressed leptons and consume their constituents. -/
def acceptedLepClusters (ptOf : V4 → DV) (ps : List Cand) (maxEta : ℚ)
    (cls : List Cluster) : List Cluster :=
  cls.filter (fun c =>
    decide (|c.eta| ≤ maxEta) && (chooseRep ptOf ps c.constituents).isSome)

/-- Dressed lepton output object. -/
structure Dressed where
  p4 : V4
  pdgId : ℤ
  charge : ℤ
  area : ℚ
deriving DecidableEq

/-- Default dressed lepton. -/
def dressed0 : Dressed := ⟨⟨0, 0, 0, 0⟩, 0, 0, 0⟩

/-- Dressed lepton built from an accepted cluster: cluster kinematics, species
code and charge from the representative constituent. -/
def mkDressed (ptOf : V4 → DV) (ps : List Cand) (c : Cluster) : Dressed :=
  let r := (chooseRep ptOf ps c.constituents).getD 0
  ⟨c.p4, (ps.getD r cand0).pdgId, (ps.getD r cand0).charge,
    if c.hasArea then c.area else 0⟩

/-- Dressed lepton collection of one event. -/
def dressedOf (ptOf : V4 → DV) (ps : List Cand) (maxEta : ℚ)
    (cls : List Cluster) : List Dressed :=
  (acceptedLepClusters ptOf ps maxEta cls).map (mkDressed ptOf ps)

/-- Constituent indices consumed by the accepted dressed-lepton clusters. -/
def lepDauIdxsOf (ptOf : V4 → DV) (ps : List Cand) (maxEta : ℚ)
    (cls : List Cluster) : List ℕ :=
  (acceptedLepClusters ptOf ps maxEta cls).flatMap (fun c => c.constituents)

/-- Main input list of jet clustering: stable particles passing the pt filter,
excluding neutrinos and the lepton-dressing constituents. -/
def fjJetMainInputsOf (ptOf : V4 → DV) (ps : List Cand) (lepDau : List ℕ) :
    List (ℕ × V4) :=
  (List.range ps.length).filterMap (fun i =>
    let p := ps.getD i cand0
    if p.status ≠ 1 then none
    else if badPtDV (ptOf p.p4) then none
    else if absPdg p = 12 ∨ absPdg p = 14 ∨ absPdg p = 16 then none
    else if lepDau.contains i then none
    else some (i, p.p4))

/-- Ghost-scaled b-hadron entries appended to the jet-clustering input; the
1e-20 / p() rescaling keeps the direction and marks jet flavour only. -/
def ghostInputsOf (ptOf : V4 → DV) (pOf : V4 → ℚ) (ps : List Cand)
    (bIdxs : List ℕ) : List (ℕ × V4) :=
  bIdxs.filterMap (fun i =>
    let p := ps.getD i cand0
    if badPtDV (ptOf p.p4) then none
    else some (i, vscale ((1 / 10 ^ 20) / pOf p.p4) p.p4))

/-- Full jet-clustering input: filtered stable particles plus b-hadron ghosts. -/
def fjJetInputsOf (ptOf : V4 → DV) (pOf : V4 → ℚ) (ps : List Cand)
    (lepDau bIdxs : List ℕ) : List (ℕ × V4) :=
  fjJetMainInputsOf ptOf ps lepDau ++ ghostInputsOf ptOf pOf ps bIdxs

/-- Jet output object; a b-tagged jet carries species code 5. -/
structure Jet where
  p4 : V4
  pdgId : ℤ
  area : ℚ
  constituents : List ℕ
deriving DecidableEq

/-- Default jet. -/
def jet0 : Jet := ⟨⟨0, 0, 0, 0⟩, 0, 0, []⟩

/-- One step of the jet building loop: eta cut, b tagging by ghost
constituent membership, and accumulation of the b-jet or light-jet index. -/
def jetStep (maxEta : ℚ) (bIdxs : List ℕ)
    (acc : List Jet × List ℕ × List ℕ) (c : Cluster) :
    List Jet × List ℕ × List ℕ :=
  if |c.eta| > maxEta then acc
  else
    let hasB := c.constituents.any (fun i => bIdxs.contains i)
    let jet : Jet := ⟨c.p4, if hasB then 5 else 0,
      if c.hasArea then c.area else 0, c.constituents⟩
    if hasB then (acc.1 ++ [jet], acc.2.1 ++ [acc.1.length], acc.2.2)
    else (acc.1 ++ [jet], acc.2.1, acc.2.2 ++ [acc.1.length])

/-- Jet building loop over the clusters returned by the black box. -/
def buildJets (maxEta : ℚ) (bIdxs : List ℕ) (cls : List Cluster) :
    List Jet × List ℕ × List ℕ :=
  cls.foldl (jetStep maxEta bIdxs) ([], [], [])

/-- Initial value of every running best mass deviation (the literal 1e9). -/
def sentinel : ℚ := 10 ^ 9

/-- Doubly nested minimisation loop over pairs (i, j) with i equal to j
skipped; the running best is replaced only on strictly smaller deviation. -/
def selectPair (cost : ℕ → ℕ → ℚ) (is js : List ℕ) : ℚ × Option (ℕ × ℕ) :=
  is.foldl (fun acc i =>
    js.foldl (fun a j =>
      if i = j then a
      else if cost i j < a.1 then (cost i j, some (i, j))
      else a) acc) (sentinel, none)

/-- Ordered sub-pairs (j1, j2) with j2 drawn strictly after j1 in list order:
the iterator pattern of the semileptonic light-jet loops. -/
def ordPairs : List ℕ → List (ℕ × ℕ)
  | [] => []
  | j :: rest => rest.map (fun k => (j, k)) ++ ordPairs rest

/-- Semileptonic three-way minimisation: neutrinos crossed with ordered
light-jet pairs. -/
def selectTriple (cost : ℕ → ℕ → ℕ → ℚ) (is js : List ℕ) :
    ℚ × Option (ℕ × ℕ × ℕ) :=
  is.foldl (fun acc i =>
    (ordPairs js).foldl (fun a jk =>
      if cost i jk.1 jk.2 < a.1 then (cost i jk.1 jk.2, some (i, jk.1, jk.2))
      else a) acc) (sentinel, none)

/-- Lepton slot 1 of the dilepton branch: the first dressed lepton when its
charge is positive, otherwise the second. -/
def dlLep1 (leptons : List Dressed) : Dressed :=
  if 0 < (leptons.getD 0 dressed0).charge then leptons.getD 0 dressed0
  else leptons.getD 1 dressed0

/-- Lepton slot 2 of the dilepton branch: the dressed lepton not in slot 1. -/
def dlLep2 (leptons : List Dressed) : Dressed :=
  if 0 < (leptons.getD 0 dressed0).charge then leptons.getD 1 dressed0
  else leptons.getD 0 dressed0

/-- Total W-mass deviation of assigning neutrino i to lepton slot 1 and
neutrino j to lepton slot 2. -/
def dlNuCost (massOf : V4 → ℚ) (wM : ℚ) (l1 l2 : Dressed) (nus : List GenP)
    (i j : ℕ) : ℚ :=
  |massOf (vadd l1.p4 (nus.getD i g0).p4) - wM| +
    |massOf (vadd l2.p4 (nus.getD j g0).p4) - wM|

/-- Total top-mass deviation of assigning b-jet k to W1 and b-jet l to W2. -/
def wbCost (massOf : V4 → ℚ) (tM : ℚ) (jets : List Jet) (w1v w2v : V4)
    (k l : ℕ) : ℚ :=
  |massOf (vadd w1v (jets.getD k jet0).p4) - tM| +
    |massOf (vadd w2v (jets.getD l jet0).p4) - tM|

/-- Semileptonic deviation: leptonic W from neutrino i, hadronic W from the
light jets j1 and j2. -/
def slCost (massOf : V4 → ℚ) (wM : ℚ) (lep : Dressed) (nus : List GenP)
    (jets : List Jet) (i j1 j2 : ℕ) : ℚ :=
  |massOf (vadd lep.p4 (nus.getD i g0).p4) - wM| +
    |massOf (vadd (jets.getD j1 jet0).p4 (jets.getD j2 jet0).p4) - wM|

/-- Dilepton branch of the combinator: same-sign leptons or a failed search
yield nothing, otherwise exactly the ten pseudo-top particles in push order. -/
def dileptonBlock (massOf : V4 → ℚ) (wM tM : ℚ) (leptons : List Dressed)
    (nus : List GenP) (jets : List Jet) (bjetIdxs : List ℕ) : List GenP :=
  let q1 := (leptons.getD 0 dressed0).charge
  let q2 := (leptons.getD 1 dressed0).charge
  if 0 < q1 * q2 then []
  else
    let l1 := dlLep1 leptons
    let l2 := dlLep2 leptons
    let r1 := selectPair (dlNuCost massOf wM l1 l2 nus)
      (List.range nus.length) (List.range nus.length)
    if sentinel ≤ r1.1 then []
    else
      match r1.2 with
      | none => []
      | some (i, j) =>
        let nu1 := nus.getD i g0
        let nu2 := nus.getD j g0
        let w1v := vadd l1.p4 nu1.p4
        let w2v := vadd l2.p4 nu2.p4
        let r2 := selectPair (wbCost massOf tM jets w1v w2v) bjetIdxs bjetIdxs
        if sentinel ≤ r2.1 then []
        else
          match r2.2 with
          | none => []
          | some (k, l) =>
            let bJet1 := jets.getD k jet0
            let bJet2 := jets.getD l jet0
            [⟨((q1 * 2 : ℤ) : ℚ) / 3, vadd w1v bJet1.p4, q1 * 6, 3, [], []⟩,
             ⟨((q2 * 2 : ℤ) : ℚ) / 3, vadd w2v bJet2.p4, q2 * 6, 3, [], []⟩,
             ⟨(q1 : ℚ), w1v, q1 * 24, 3, [], []⟩,
             ⟨((-q1 : ℤ) : ℚ) / 3, bJet1.p4, q1 * 5, 1, [], []⟩,
             ⟨(q1 : ℚ), l1.p4, l1.pdgId, 1, [], []⟩,
             ⟨0, nu1.p4, nu1.pdgId, 1, [], []⟩,
             ⟨(q2 : ℚ), w2v, q2 * 24, 3, [], []⟩,
             ⟨((-q1 : ℤ) : ℚ) / 3, bJet2.p4, q2 * 5, 1, [], []⟩,
             ⟨(q2 : ℚ), l2.p4, l2.pdgId, 1, [], []⟩,
             ⟨0, nu2.p4, nu2.pdgId, 1, [], []⟩]

/-- Semileptonic branch of the combinator. -/
def semilepBlock (massOf : V4 → ℚ) (wM tM : ℚ) (leptons : List Dressed)
    (nus : List GenP) (jets : List Jet) (bjetIdxs ljetIdxs : List ℕ) :
    List GenP :=
  let lep := leptons.getD 0 dressed0
  let r1 := selectTriple (slCost massOf wM lep nus jets)
    (List.range nus.length) ljetIdxs
  if sentinel ≤ r1.1 then []
  else
    match r1.2 with
    | none => []
    | some (i, j1, j2) =>
      let nu1 := nus.getD i g0
      let wJet1 := jets.getD j1 jet0
      let wJet2 := jets.getD j2 jet0
      let w1v := vadd lep.p4 nu1.p4
      let w2v := vadd wJet1.p4 wJet2.p4
      let r2 := selectPair (wbCost massOf tM jets w1v w2v) bjetIdxs bjetIdxs
      if sentinel ≤ r2.1 then []
      else
        match r2.2 with
        | none => []
        | some (k, l) =>
          let bJet1 := jets.getD k jet0
          let bJet2 := jets.getD l jet0
          let q := lep.charge
          [⟨((q * 2 : ℤ) : ℚ) / 3, vadd w1v bJet1.p4, q * 6, 3, [], []⟩,
           ⟨((-q * 2 : ℤ) : ℚ) / 3, vadd w2v bJet2.p4, -q * 6, 3, [], []⟩,
           ⟨(q : ℚ), w1v, q * 24, 3, [], []⟩,
           ⟨((-q : ℤ) : ℚ) / 3, bJet1.p4, q * 5, 1, [], []⟩,
           ⟨(q : ℚ), lep.p4, lep.pdgId, 1, [], []⟩,
           ⟨0, nu1.p4, nu1.pdgId, 1, [], []⟩,
           ⟨((-q : ℤ) : ℚ), w2v, -q * 24, 3, [], []⟩,
           ⟨0, bJet2.p4, -q * 5, 1, [], []⟩,
           ⟨0, wJet1.p4, -2 * q, 1, [], []⟩,
           ⟨0, wJet2.p4, q, 1, [], []⟩]

/-- The do-while combination block of produce: at least two b-jets, then the
dilepton or the semileptonic channel, otherwise nothing. -/
def runCombination (massOf : V4 → ℚ) (wM tM : ℚ) (leptons : List Dressed)
    (nus : List GenP) (jets : List Jet) (bjetIdxs ljetIdxs : List ℕ) :
    List GenP :=
  if bjetIdxs.length < 2 then []
  else if leptons.length = 2 ∧ 2 ≤ nus.length then
    dileptonBlock massOf wM tM leptons nus jets bjetIdxs
  else if leptons.length = 1 ∧ 1 ≤ nus.length then
    semilepBlock massOf wM tM leptons nus jets bjetIdxs ljetIdxs
  else []

/-- Daughter links of the fixed pseudo-top decay graph, by output index. -/
def dauOf : ℕ → List ℕ
  | 0 => [2, 3]
  | 1 => [6, 7]
  | 2 => [4, 5]
  | 6 => [8, 9]
  | _ => []

/-- Mother links of the fixed pseudo-top decay graph, by output index. -/
def momOf : ℕ → List ℕ
  | 2 => [0]
  | 3 => [0]
  | 4 => [2]
  | 5 => [2]
  | 6 => [1]
  | 7 => [1]
  | 8 => [6]
  | 9 => [6]
  | _ => []

/-- Decay-graph building: applied only when the decay tree is complete, that
is when exactly ten particles were produced. -/
def linkGraph (l : List GenP) : List GenP :=
  if l.length = 10 then
    l.mapIdx (fun i p => ⟨p.charge, p.p4, p.pdgId, p.status, momOf i, dauOf i⟩)
  else l

/-- Run configuration: eta cuts and reference masses.  The pt thresholds and
cone sizes act inside the clustering black boxes. -/
structure Cfg where
  leptonMaxEta : ℚ
  jetMaxEta : ℚ
  wMass : ℚ
  tMass : ℚ

/-- Black-box kinematic evaluations of the floating-point library calls:
transverse momentum, total momentum and invariant mass of a four-vector. -/
structure Kin where
  ptOf : V4 → DV
  pOf : V4 → ℚ
  massOf : V4 → ℚ

/-- Output collections of one produce call. -/
structure Out where
  neutrinos : List GenP
  leptons : List Dressed
  jets : List Jet
  pseudoTop : List GenP

/-- PseudoTopProducer::produce, with the sequential-recombination clustering
supplied as black-box functions from (index, four-momentum) inputs to
pseudo-jet clusters already cut at the minimum pt and sorted by pt. -/
def produce (cfg : Cfg) (kin : Kin)
    (lepCluster jetCluster : List (ℕ × V4) → List Cluster)
    (ps : List Cand) : Out :=
  let bIdxs := bHadronIdxsOf ps
  let nus := neutrinosOf kin.ptOf ps
  let lepCls := lepCluster (fjLepInputsOf kin.ptOf ps)
  let leptons := dressedOf kin.ptOf ps cfg.leptonMaxEta lepCls
  let lepDau := lepDauIdxsOf kin.ptOf ps cfg.leptonMaxEta lepCls
  let jetCls := jetCluster (fjJetInputsOf kin.ptOf kin.pOf ps lepDau bIdxs)
  let built := buildJets cfg.jetMaxEta bIdxs jetCls
  let res := runCombination kin.massOf cfg.wMass cfg.tMass leptons nus
    built.1 built.2.1 built.2.2
  ⟨nus, leptons, built.1, linkGraph res⟩

/-- Loop-order enumeration of the pairs visited by selectPair: outer index
first, inner index second, equal pairs skipped. -/
def offPairs (is js : List ℕ) : List (ℕ × ℕ) :=
  is.flatMap (fun i => (js.filter (fun j => j ≠ i)).map (fun j => (i, j)))

/-- Loop-order enumeration of the triples visited by selectTriple. -/
def allTriples (is js : List ℕ) : List (ℕ × ℕ × ℕ) :=
  is.flatMap (fun i => (ordPairs js).map (fun jk => (i, jk.1, jk.2)))

/-- Generic running-minimum fold with strict improvement. -/
def foldMin {α : Type} (cost : α → ℚ) : List α → ℚ × Option α → ℚ × Option α
  | [], acc => acc
  | p :: l, acc =>
    foldMin cost l (if cost p < acc.1 then (cost p, some p) else acc)

/-- First element attaining the minimum cost over the enumeration: the
specification-side tie-break (first-encountered minimal combination wins). -/
def firstArgmin {α : Type} (cost : α → ℚ) (l : List α) : Option α :=
  l.find? (fun p => l.all (fun q => decide (cost p ≤ cost q)))

/-- Charged-lepton constituents of a cluster constituent list. -/
def lepConsts (ps : List Cand) (cs : List ℕ) : List ℕ :=
  cs.filter (fun i => isLepId ps i)

/-- Specification-side representative rule: the first-seen highest-pt lepton
constituent (ties broken towards the earlier one). -/
def claimRepFirst (ptOf : V4 → DV) (ps : List Cand) (cs : List ℕ) : Option ℕ :=
  (lepConsts ps cs).find? (fun i =>
    (lepConsts ps cs).all (fun j =>
      ! gtDV (ptOf (ps.getD j cand0).p4) (ptOf (ps.getD i cand0).p4)))

/-- Last-seen highest-pt lepton constituent: the tie-break the code realises
through its strict running comparison. -/
def lastArgmaxRep (ptOf : V4 → DV) (ps : List Cand) (cs : List ℕ) : Option ℕ :=
  (lepConsts ps cs).reverse.find? (fun i =>
    (lepConsts ps cs).all (fun j =>
      ! gtDV (ptOf (ps.getD j cand0).p4) (ptOf (ps.getD i cand0).p4)))

/-- Concrete event with two charged-lepton candidates of exactly equal pt,
used to exercise the representative tie-break. -/
def cexPs : List Cand :=
  [⟨⟨0, 0, 0, 5⟩, -1, 11, 1, [], []⟩, ⟨⟨0, 0, 0, 5⟩, -1, 13, 1, [], []⟩]

/-- Concrete pt evaluation reading the stored energy component. -/
def cexPt (v : V4) : DV := DV.val v.en

/-- Concrete event with one beam-like ancestor and one stable electron, used
to exercise the pre-clustering pt filter. -/
def c9Ps : List Cand :=
  [⟨⟨0, 0, 0, 1⟩, 0, 2212, 3, [], []⟩, ⟨⟨1, 0, 0, 1⟩, -1, 11, 1, [0], []⟩]

/-- Concrete dressed-lepton pair with opposite unit charges. -/
def wLeps : List Dressed := [⟨⟨0, 0, 0, 0⟩, -11, 1, 0⟩, ⟨⟨0, 0, 0, 0⟩, 11, -1, 0⟩]

/-- Concrete two-entry neutrino list. -/
def wNus : List GenP := [g0, g0]

/-- Concrete two-entry jet list. -/
def wJets : List Jet := [jet0, jet0]

/-- The ten dilepton-channel output particles, in push order, for selected
neutrinos (i, j) and b-jets (k, l). -/
def dlOutput (leptons : List Dressed) (nus : List GenP) (jets : List Jet)
    (i j k l : ℕ) : List GenP :=
  let q1 := (leptons.getD 0 dressed0).charge
  let q2 := (leptons.getD 1 dressed0).charge
  let l1 := dlLep1 leptons
  let l2 := dlLep2 leptons
  let nu1 := nus.getD i g0
  let nu2 := nus.getD j g0
  let w1v := vadd l1.p4 nu1.p4
  let w2v := vadd l2.p4 nu2.p4
  let bJet1 := jets.getD k jet0
  let bJet2 := jets.getD l jet0
  [⟨((q1 * 2 : ℤ) : ℚ) / 3, vadd w1v bJet1.p4, q1 * 6, 3, [], []⟩,
   ⟨((q2 * 2 : ℤ) : ℚ) / 3, vadd w2v bJet2.p4, q2 * 6, 3, [], []⟩,
   ⟨(q1 : ℚ), w1v, q1 * 24, 3, [], []⟩,
   ⟨((-q1 : ℤ) : ℚ) / 3, bJet1.p4, q1 * 5, 1, [], []⟩,
   ⟨(q1 : ℚ), l1.p4, l1.pdgId, 1, [], []⟩,
   ⟨0, nu1.p4, nu1.pdgId, 1, [], []⟩,
   ⟨(q2 : ℚ), w2v, q2 * 24, 3, [], []⟩,
   ⟨((-q1 : ℤ) : ℚ) / 3, bJet2.p4, q2 * 5, 1, [], []⟩,
   ⟨(q2 : ℚ), l2.p4, l2.pdgId, 1, [], []⟩,
   ⟨0, nu2.p4, nu2.pdgId, 1, [], []⟩]

/-- The ten semileptonic-channel output particles, in push order, for selected
neutrino i, light jets (j1, j2) and b-jets (k, l). -/
def slOutput (leptons : List Dressed) (nus : List GenP) (jets : List Jet)
    (i j1 j2 k l : ℕ) : List GenP :=
  let lep := leptons.getD 0 dressed0
  let nu1 := nus.getD i g0
  let wJet1 := jets.getD j1 jet0
  let wJet2 := jets.getD j2 jet0
  let w1v := vadd lep.p4 nu1.p4
  let w2v := vadd wJet1.p4 wJet2.p4
  let bJet1 := jets.getD k jet0
  let bJet2 := jets.getD l jet0
  let q := lep.charge
  [⟨((q * 2 : ℤ) : ℚ) / 3, vadd w1v bJet1.p4, q * 6, 3, [], []⟩,
   ⟨((-q * 2 : ℤ) : ℚ) / 3, vadd w2v bJet2.p4, -q * 6, 3, [], []⟩,
   ⟨(q : ℚ), w1v, q * 24, 3, [], []⟩,
   ⟨((-q : ℤ) : ℚ) / 3, bJet1.p4, q * 5, 1, [], []⟩,
   ⟨(q : ℚ), lep.p4, lep.pdgId, 1, [], []⟩,
   ⟨0, nu1.p4, nu1.pdgId, 1, [], []⟩,
   ⟨((-q : ℤ) : ℚ), w2v, -q * 24, 3, [], []⟩,
   ⟨0, bJet2.p4, -q * 5, 1, [], []⟩,
   ⟨0, wJet1.p4, -2 * q, 1, [], []⟩,
   ⟨0, wJet2.p4, q, 1, [], []⟩]

end PseudoTop

namespace PseudoTop

theorem foldMin_append {α : Type} (cost : α → ℚ) :
    ∀ (l1 l2 : List α) (acc : ℚ × Option α),
      foldMin cost (l1 ++ l2) acc = foldMin cost l2 (foldMin cost l1 acc)
  | [], _, _ => rfl
  | p :: l1, l2, acc => by
    show foldMin cost (l1 ++ l2) _ = _
    exact foldMin_append cost l1 l2 _

theorem foldMin_of_ge {α : Type} (cost : α → ℚ) :
    ∀ (l : List α) (d : ℚ) (s : Option α), (∀ p ∈ l, d ≤ cost p) →
      foldMin cost l (d, s) = (d, s)
  | [], _, _, _ => rfl
  | p :: l, d, s, h => by
    have hp : ¬ cost p < d := not_lt.mpr (h p (by simp))
    show foldMin cost l (if cost p < d then _ else _) = _
    rw [if_neg hp]
    exact foldMin_of_ge cost l d s (fun q hq => h q (by simp [hq]))

theorem foldMin_fst_le {α : Type} (cost : α → ℚ) :
    ∀ (l : List α) (acc : ℚ × Option α), (foldMin cost l acc).1 ≤ acc.1
  | [], _ => le_refl _
  | p :: l, acc => by
    show (foldMin cost l (if cost p < acc.1 then _ else _)).1 ≤ _
    by_cases hp : cost p < acc.1
    · rw [if_pos hp]
      exact le_trans (foldMin_fst_le cost l _) (le_of_lt hp)
    · rw [if_neg hp]
      exact foldMin_fst_le cost l acc

theorem foldMin_isSome_of_isSome {α : Type} (cost : α → ℚ) :
    ∀ (l : List α) (acc : ℚ × Option α), acc.2.isSome = true →
      (foldMin cost l acc).2.isSome = true
  | [], _, h => h
  | p :: l, acc, h => by
    show (foldMin cost l (if cost p < acc.1 then _ else _)).2.isSome = true
    by_cases hp : cost p < acc.1
    · rw [if_pos hp]
      exact foldMin_isSome_of_isSome cost l _ rfl
    · rw [if_neg hp]
      exact foldMin_isSome_of_isSome cost l acc h

theorem foldMin_fst_lt_of_isSome {α : Type} (cost : α → ℚ) :
    ∀ (l : List α) (d : ℚ), (foldMin cost l (d, none)).2.isSome = true →
      (foldMin cost l (d, none)).1 < d
  | [], d, h => by simp [foldMin] at h
  | p :: l, d, h => by
    by_cases hp : cost p < d
    · have he : foldMin cost (p :: l) (d, none)
          = foldMin cost l (cost p, some p) := by
        show foldMin cost l (if cost p < d then _ else _) = _
        rw [if_pos hp]
      rw [he]
      exact lt_of_le_of_lt (foldMin_fst_le cost l _) hp
    · have he : foldMin cost (p :: l) (d, none) = foldMin cost l (d, none) := by
        show foldMin cost l (if cost p < d then _ else _) = _
        rw [if_neg hp]
      rw [he] at h ⊢
      exact foldMin_fst_lt_of_isSome cost l d h

theorem foldMin_none_iff {α : Type} (cost : α → ℚ) :
    ∀ (l : List α) (d : ℚ),
      (foldMin cost l (d, none)).2 = none ↔ ∀ p ∈ l, d ≤ cost p := by
  intro l d
  constructor
  · intro h
    induction l with
    | nil => simp
    | cons p l ih =>
      by_cases hp : cost p < d
      · exfalso
        have he : foldMin cost (p :: l) (d, none)
            = foldMin cost l (cost p, some p) := by
          show foldMin cost l (if cost p < d then _ else _) = _
          rw [if_pos hp]
        rw [he] at h
        have := foldMin_isSome_of_isSome cost l (cost p, some p) rfl
        rw [h] at this
        simp at this
      · have he : foldMin cost (p :: l) (d, none) = foldMin cost l (d, none) := by
          show foldMin cost l (if cost p < d then _ else _) = _
          rw [if_neg hp]
        rw [he] at h
        intro q hq
        rcases List.mem_cons.mp hq with rfl | hql
        · exact not_lt.mp hp
        · exact ih h q hql
  · intro h
    rw [foldMin_of_ge cost l d none h]

theorem find?_ext_mem {α : Type} (l : List α) {p q : α → Bool}
    (h : ∀ x ∈ l, p x = q x) : l.find? p = l.find? q := by
  induction l with
  | nil => rfl
  | cons x l ih =>
    have hx : p x = q x := h x (by simp)
    by_cases hpx : p x = true
    · rw [List.find?_cons_of_pos l hpx, List.find?_cons_of_pos l (hx ▸ hpx)]
    · rw [List.find?_cons_of_neg l hpx, List.find?_cons_of_neg l (hx ▸ hpx)]
      exact ih (fun y hy => h y (by simp [hy]))

theorem exists_argmin {α : Type} (cost : α → ℚ) :
    ∀ (l : List α), l ≠ [] → ∃ m ∈ l, ∀ q ∈ l, cost m ≤ cost q
  | [], h => absurd rfl h
  | [p], _ => ⟨p, by simp, by simp⟩
  | p :: x :: xs, _ => by
    obtain ⟨m, hm, hmin⟩ := exists_argmin cost (x :: xs) (by simp)
    by_cases hc : cost p ≤ cost m
    · refine ⟨p, by simp, ?_⟩
      intro q hq
      rcases List.mem_cons.mp hq with rfl | hql
      · exact le_refl _
      · exact le_trans hc (hmin q hql)
    · refine ⟨m, List.mem_cons_of_mem p hm, ?_⟩
      intro q hq
      rcases List.mem_cons.mp hq with rfl | hql
      · exact le_of_not_le hc
      · exact hmin q hql

theorem foldMin_snd_eq {α : Type} (cost : α → ℚ) :
    ∀ (l : List α) (d : ℚ) (s : Option α), (∃ p ∈ l, cost p < d) →
      (foldMin cost l (d, s)).2
        = l.find? (fun p => l.all (fun q => decide (cost p ≤ cost q)))
  | [], _, _, h => by simp at h
  | p :: l, d, s, h => by
    by_cases hp : cost p < d
    · have he : foldMin cost (p :: l) (d, s)
          = foldMin cost l (cost p, some p) := by
        show foldMin cost l (if cost p < d then _ else _) = _
        rw [if_pos hp]
      by_cases hl : ∃ r ∈ l, cost r < cost p
      · obtain ⟨r, hrm, hr⟩ := hl
        have ih := foldMin_snd_eq cost l (cost p) (some p) ⟨r, hrm, hr⟩
        rw [he, ih]
        have hpfail : ¬ ((p :: l).all
            (fun q => decide (cost p ≤ cost q)) = true) := by
          simp only [List.all_eq_true, not_forall]
          exact ⟨r, by simp [hrm], by simp [not_le.mpr hr]⟩
        rw [List.find?_cons_of_neg l hpfail]
        refine (find?_ext_mem l ?_).symm
        intro x hx
        rw [List.all_cons]
        rcases hall : l.all (fun q => decide (cost x ≤ cost q)) with _ | _
        · simp
        · have hxr : cost x ≤ cost r := by
            have := List.all_eq_true.mp hall r hrm
            simpa using this
          have : cost x ≤ cost p := le_of_lt (lt_of_le_of_lt hxr hr)
          simp [this]
      · push_neg at hl
        have hall : ∀ r ∈ l, cost p ≤ cost r := hl
        rw [he, foldMin_of_ge cost l (cost p) (some p) hall]
        have hpok : ((p :: l).all (fun q => decide (cost p ≤ cost q)) = true) := by
          simp only [List.all_eq_true]
          intro q hq
          rcases List.mem_cons.mp hq with rfl | hql
          · simp
          · simpa using hall q hql
        rw [List.find?_cons_of_pos l hpok]
    · have he : foldMin cost (p :: l) (d, s) = foldMin cost l (d, s) := by
        show foldMin cost l (if cost p < d then _ else _) = _
        rw [if_neg hp]
      have hwit : ∃ r ∈ l, cost r < d := by
        rcases h with ⟨r, hrm, hr⟩
        rcases List.mem_cons.mp hrm with rfl | hrl
        · exact absurd hr hp
        · exact ⟨r, hrl, hr⟩
      obtain ⟨r, hrm, hr⟩ := hwit
      have hrp : cost r < cost p := lt_of_lt_of_le hr (not_lt.mp hp)
      have ih := foldMin_snd_eq cost l d s ⟨r, hrm, hr⟩
      rw [he, ih]
      have hpfail : ¬ ((p :: l).all
          (fun q => decide (cost p ≤ cost q)) = true) := by
        simp only [List.all_eq_true, not_forall]
        exact ⟨r, by simp [hrm], by simp [not_le.mpr hrp]⟩
      rw [List.find?_cons_of_neg l hpfail]
      refine (find?_ext_mem l ?_).symm
      intro x hx
      rw [List.all_cons]
      rcases hall : l.all (fun q => decide (cost x ≤ cost q)) with _ | _
      · simp
      · have hxr : cost x ≤ cost r := by
          have := List.all_eq_true.mp hall r hrm
          simpa using this
        have : cost x ≤ cost p := le_of_lt (lt_of_le_of_lt hxr hrp)
        simp [this]

end PseudoTop

namespace PseudoTop

theorem selInner_eq (cost : ℕ → ℕ → ℚ) (i : ℕ) :
    ∀ (js : List ℕ) (acc : ℚ × Option (ℕ × ℕ)),
      js.foldl (fun a j =>
        if i = j then a
        else if cost i j < a.1 then (cost i j, some (i, j)) else a) acc
        = foldMin (fun p => cost p.1 p.2)
            ((js.filter (fun j => j ≠ i)).map (fun j => (i, j))) acc
  | [], _ => rfl
  | j :: js, acc => by
    by_cases hij : i = j
    · have hd : (decide (j ≠ i)) = false := by simp [hij]
      rw [List.foldl_cons, if_pos hij, List.filter_cons, hd]
      simp only [Bool.false_eq_true, if_false]
      exact selInner_eq cost i js acc
    · have hd : (decide (j ≠ i)) = true := by
        simp only [decide_eq_true_eq]
        exact fun h => hij h.symm
      rw [List.foldl_cons, if_neg hij, List.filter_cons, hd]
      simp only [if_true, List.map_cons]
      show _ = foldMin _ _ (if cost i j < acc.1 then _ else _)
      exact selInner_eq cost i js _

theorem selectPair_aux (cost : ℕ → ℕ → ℚ) (js : List ℕ) :
    ∀ (is : List ℕ) (acc : ℚ × Option (ℕ × ℕ)),
      is.foldl (fun acc i =>
        js.foldl (fun a j =>
          if i = j then a
          else if cost i j < a.1 then (cost i j, some (i, j)) else a) acc) acc
        = foldMin (fun p => cost p.1 p.2) (offPairs is js) acc
  | [], _ => rfl
  | i :: is, acc => by
    rw [List.foldl_cons]
    have hop : offPairs (i :: is) js
        = (js.filter (fun j => j ≠ i)).map (fun j => (i, j)) ++ offPairs is js := by
      simp [offPairs]
    rw [hop, foldMin_append, ← selInner_eq cost i js acc]
    exact selectPair_aux cost js is _

theorem selectPair_eq (cost : ℕ → ℕ → ℚ) (is js : List ℕ) :
    selectPair cost is js
      = foldMin (fun p => cost p.1 p.2) (offPairs is js) (sentinel, none) :=
  selectPair_aux cost js is (sentinel, none)

theorem selTripleInner_eq (cost3 : ℕ → ℕ → ℕ → ℚ) (i : ℕ) :
    ∀ (pl : List (ℕ × ℕ)) (acc : ℚ × Option (ℕ × ℕ × ℕ)),
      pl.foldl (fun a jk =>
        if cost3 i jk.1 jk.2 < a.1 then (cost3 i jk.1 jk.2, some (i, jk.1, jk.2))
        else a) acc
        = foldMin (fun t => cost3 t.1 t.2.1 t.2.2)
            (pl.map (fun jk => (i, jk.1, jk.2))) acc
  | [], _ => rfl
  | jk :: pl, acc => by
    rw [List.foldl_cons, List.map_cons]
    show _ = foldMin _ _ (if cost3 i jk.1 jk.2 < acc.1 then _ else _)
    exact selTripleInner_eq cost3 i pl _

theorem selectTriple_aux (cost3 : ℕ → ℕ → ℕ → ℚ) (js : List ℕ) :
    ∀ (is : List ℕ) (acc : ℚ × Option (ℕ × ℕ × ℕ)),
      is.foldl (fun acc i =>
        (ordPairs js).foldl (fun a jk =>
          if cost3 i jk.1 jk.2 < a.1 then (cost3 i jk.1 jk.2, some (i, jk.1, jk.2))
          else a) acc) acc
        = foldMin (fun t => cost3 t.1 t.2.1 t.2.2) (allTriples is js) acc
  | [], _ => rfl
  | i :: is, acc => by
    rw [List.foldl_cons]
    have hop : allTriples (i :: is) js
        = (ordPairs js).map (fun jk => (i, jk.1, jk.2)) ++ allTriples is js := by
      simp [allTriples]
    rw [hop, foldMin_append, ← selTripleInner_eq cost3 i (ordPairs js) acc]
    exact selectTriple_aux cost3 js is _

theorem selectTriple_eq (cost3 : ℕ → ℕ → ℕ → ℚ) (is js : List ℕ) :
    selectTriple cost3 is js
      = foldMin (fun t => cost3 t.1 t.2.1 t.2.2) (allTriples is js)
          (sentinel, none) :=
  selectTriple_aux cost3 js is (sentinel, none)

theorem mem_offPairs {is js : List ℕ} {x : ℕ × ℕ} :
    x ∈ offPairs is js ↔ x.1 ∈ is ∧ x.2 ∈ js ∧ x.2 ≠ x.1 := by
  rcases x with ⟨a, b⟩
  simp only [offPairs, List.mem_flatMap, List.mem_map, List.mem_filter]
  constructor
  · rintro ⟨i, hi, j, ⟨hjm, hjd⟩, heq⟩
    rcases Prod.mk.injEq .. ▸ heq with ⟨h1, h2⟩
    subst h1
    subst h2
    exact ⟨hi, hjm, by simpa using hjd⟩
  · rintro ⟨ha, hb, hne⟩
    exact ⟨a, ha, b, ⟨hb, by simpa using hne⟩, rfl⟩

theorem mem_allTriples {is js : List ℕ} {x : ℕ × ℕ × ℕ} :
    x ∈ allTriples is js ↔ x.1 ∈ is ∧ (x.2.1, x.2.2) ∈ ordPairs js := by
  rcases x with ⟨a, b, c⟩
  simp only [allTriples, List.mem_flatMap, List.mem_map]
  constructor
  · rintro ⟨i, hi, jk, hjk, heq⟩
    have h1 : a = i ∧ b = jk.1 ∧ c = jk.2 := by
      have := heq
      simp only [Prod.mk.injEq] at this
      tauto
    rcases h1 with ⟨rfl, rfl, rfl⟩
    exact ⟨hi, hjk⟩
  · rintro ⟨ha, hbc⟩
    exact ⟨a, ha, (b, c), hbc, rfl⟩

theorem selectPair_none_iff (cost : ℕ → ℕ → ℚ) (is js : List ℕ) :
    (selectPair cost is js).2 = none
      ↔ ∀ i ∈ is, ∀ j ∈ js, j ≠ i → sentinel ≤ cost i j := by
  rw [selectPair_eq, foldMin_none_iff]
  constructor
  · intro h i hi j hj hne
    exact h (i, j) (mem_offPairs.mpr ⟨hi, hj, hne⟩)
  · rintro h ⟨i, j⟩ hm
    rcases mem_offPairs.mp hm with ⟨hi, hj, hne⟩
    exact h i hi j hj hne

theorem selectPair_isSome_iff (cost : ℕ → ℕ → ℚ) (is js : List ℕ) :
    (selectPair cost is js).2.isSome = true
      ↔ ∃ i ∈ is, ∃ j ∈ js, j ≠ i ∧ cost i j < sentinel := by
  rw [Option.isSome_iff_ne_none, Ne, selectPair_none_iff]
  push_neg
  constructor
  · rintro ⟨i, hi, j, hj, hne, hlt⟩
    exact ⟨i, hi, j, hj, hne, hlt⟩
  · rintro ⟨i, hi, j, hj, hne, hlt⟩
    exact ⟨i, hi, j, hj, hne, hlt⟩

theorem selectTriple_none_iff (cost3 : ℕ → ℕ → ℕ → ℚ) (is js : List ℕ) :
    (selectTriple cost3 is js).2 = none
      ↔ ∀ i ∈ is, ∀ jk ∈ ordPairs js, sentinel ≤ cost3 i jk.1 jk.2 := by
  rw [selectTriple_eq, foldMin_none_iff]
  constructor
  · intro h i hi jk hjk
    exact h (i, jk.1, jk.2) (mem_allTriples.mpr ⟨hi, hjk⟩)
  · rintro h ⟨i, j, k⟩ hm
    rcases mem_allTriples.mp hm with ⟨hi, hjk⟩
    exact h i hi (j, k) hjk

theorem selectTriple_isSome_iff (cost3 : ℕ → ℕ → ℕ → ℚ) (is js : List ℕ) :
    (selectTriple cost3 is js).2.isSome = true
      ↔ ∃ i ∈ is, ∃ jk ∈ ordPairs js, cost3 i jk.1 jk.2 < sentinel := by
  rw [Option.isSome_iff_ne_none, Ne, selectTriple_none_iff]
  push_neg
  constructor
  · rintro ⟨i, hi, jk, hjk, hlt⟩
    exact ⟨i, hi, jk, hjk, hlt⟩
  · rintro ⟨i, hi, jk, hjk, hlt⟩
    exact ⟨i, hi, jk, hjk, hlt⟩

theorem selectPair_snd_eq (cost : ℕ → ℕ → ℚ) (is js : List ℕ)
    (h : ∃ p ∈ offPairs is js, cost p.1 p.2 < sentinel) :
    (selectPair cost is js).2
      = firstArgmin (fun p => cost p.1 p.2) (offPairs is js) := by
  rw [selectPair_eq]
  exact foldMin_snd_eq (fun p => cost p.1 p.2) (offPairs is js) sentinel none h

theorem selectPair_fst_lt (cost : ℕ → ℕ → ℚ) (is js : List ℕ)
    (h : (selectPair cost is js).2.isSome = true) :
    (selectPair cost is js).1 < sentinel := by
  rw [selectPair_eq] at h ⊢
  exact foldMin_fst_lt_of_isSome (fun p => cost p.1 p.2) (offPairs is js)
    sentinel h

theorem selectPair_none_fst (cost : ℕ → ℕ → ℚ) (is js : List ℕ)
    (h : (selectPair cost is js).2 = none) :
    (selectPair cost is js).1 = sentinel := by
  rw [selectPair_eq] at h ⊢
  rw [foldMin_of_ge (fun p => cost p.1 p.2) (offPairs is js) sentinel none
    ((foldMin_none_iff _ _ _).mp h)]

theorem selectTriple_fst_lt (cost3 : ℕ → ℕ → ℕ → ℚ) (is js : List ℕ)
    (h : (selectTriple cost3 is js).2.isSome = true) :
    (selectTriple cost3 is js).1 < sentinel := by
  rw [selectTriple_eq] at h ⊢
  exact foldMin_fst_lt_of_isSome _ (allTriples is js) sentinel h

theorem selectTriple_none_fst (cost3 : ℕ → ℕ → ℕ → ℚ) (is js : List ℕ)
    (h : (selectTriple cost3 is js).2 = none) :
    (selectTriple cost3 is js).1 = sentinel := by
  rw [selectTriple_eq] at h ⊢
  rw [foldMin_of_ge _ (allTriples is js) sentinel none
    ((foldMin_none_iff _ _ _).mp h)]

end PseudoTop

namespace PseudoTop

theorem gtDV_self (a : DV) : gtDV a a = false := by
  cases a <;> simp [gtDV]

theorem gtDV_asymm {a b : DV} (h : gtDV a b = true) : gtDV b a = false := by
  cases a <;> cases b <;> simp_all [gtDV] <;> linarith

theorem gtDV_rank {a b : DV} (ha : a ≠ DV.nan) (hb : b ≠ DV.nan) :
    gtDV a b = true ↔ rank b < rank a := by
  cases a with
  | nan => exact absurd rfl ha
  | inf =>
    cases b with
    | nan => exact absurd rfl hb
    | inf => simp [gtDV, rank]
    | val q => simp [gtDV, rank, WithTop.coe_lt_top]
  | val p =>
    cases b with
    | nan => exact absurd rfl hb
    | inf =>
      simp only [gtDV, rank, Bool.false_eq_true, false_iff]
      exact not_top_lt
    | val q => simp [gtDV, rank, WithTop.coe_lt_coe]

theorem gtDV_false_rank {a b : DV} (ha : a ≠ DV.nan) (hb : b ≠ DV.nan) :
    gtDV a b = false ↔ rank a ≤ rank b := by
  rw [← not_lt, ← gtDV_rank ha hb]
  cases h : gtDV a b <;> simp

theorem gtDV_neg_trans {a b c : DV} (ha : a ≠ DV.nan) (hb : b ≠ DV.nan)
    (hc : c ≠ DV.nan) (h1 : gtDV b a = false) (h2 : gtDV c b = false) :
    gtDV c a = false := by
  rw [gtDV_false_rank hb ha] at h1
  rw [gtDV_false_rank hc hb] at h2
  rw [gtDV_false_rank hc ha]
  exact le_trans h2 h1

theorem nuLe_total (ptOf : V4 → DV) (a b : GenP) :
    nuLe ptOf a b = true ∨ nuLe ptOf b a = true := by
  unfold nuLe
  rcases h : gtDV (ptOf b.p4) (ptOf a.p4) with _ | _
  · left
    simp [h]
  · right
    simp [gtDV_asymm h]

theorem mem_insertGe {α : Type} (le : α → α → Bool) (x : α) {a : α} :
    ∀ (l : List α), a ∈ insertGe le x l ↔ a = x ∨ a ∈ l
  | [] => by simp [insertGe]
  | y :: ys => by
    by_cases h : le x y
    · simp [insertGe, h, List.mem_cons]
    · simp only [insertGe, if_neg h, List.mem_cons, mem_insertGe le x ys]
      tauto

theorem mem_sortBy {α : Type} (le : α → α → Bool) {a : α} :
    ∀ (l : List α), a ∈ sortBy le l ↔ a ∈ l
  | [] => Iff.rfl
  | x :: l => by
    show a ∈ insertGe le x (sortBy le l) ↔ _
    rw [mem_insertGe le x (sortBy le l), mem_sortBy le l, List.mem_cons]

theorem pairwise_insertGe {α : Type} (le : α → α → Bool) (P : α → Prop)
    (htot : ∀ x y, le x y = true ∨ le y x = true)
    (htr : ∀ x y z, P x → P y → P z → le x y = true → le y z = true →
      le x z = true)
    (x : α) (hx : P x) :
    ∀ (l : List α), (∀ a ∈ l, P a) →
      l.Pairwise (fun a b => le a b = true) →
      (insertGe le x l).Pairwise (fun a b => le a b = true)
  | [], _, _ => by simp [insertGe]
  | y :: ys, hP, hpw => by
    rcases List.pairwise_cons.mp hpw with ⟨hy, hys⟩
    by_cases h : le x y = true
    · simp only [insertGe, if_pos h]
      refine List.pairwise_cons.mpr ⟨?_, hpw⟩
      intro b hb
      rcases List.mem_cons.mp hb with rfl | hbys
      · exact h
      · exact htr x y b hx (hP y (by simp)) (hP b (by simp [hbys])) h (hy b hbys)
    · have hyx : le y x = true := (htot x y).resolve_left h
      simp only [insertGe, if_neg h]
      refine List.pairwise_cons.mpr ⟨?_, ?_⟩
      · intro b hb
        rcases (mem_insertGe le x ys).mp hb with rfl | hbys
        · exact hyx
        · exact hy b hbys
      · exact pairwise_insertGe le P htot htr x hx ys
          (fun a ha => hP a (by simp [ha])) hys

theorem pairwise_sortBy {α : Type} (le : α → α → Bool) (P : α → Prop)
    (htot : ∀ x y, le x y = true ∨ le y x = true)
    (htr : ∀ x y z, P x → P y → P z → le x y = true → le y z = true →
      le x z = true) :
    ∀ (l : List α), (∀ a ∈ l, P a) →
      (sortBy le l).Pairwise (fun a b => le a b = true)
  | [], _ => by simp [sortBy]
  | x :: l, hP => by
    show (insertGe le x (sortBy le l)).Pairwise _
    refine pairwise_insertGe le P htot htr x (hP x (by simp)) (sortBy le l)
      ?_ (pairwise_sortBy le P htot htr l (fun a ha => hP a (by simp [ha])))
    intro a ha
    exact hP a (List.mem_cons_of_mem x ((mem_sortBy le l).mp ha))

end PseudoTop

namespace PseudoTop

theorem repStep_isSome (ptOf : V4 → DV) (ps : List Cand) (acc : Option ℕ)
    (i : ℕ) (h : acc.isSome = true) : (repStep ptOf ps acc i).isSome = true := by
  unfold repStep
  rcases acc with _ | a
  · simp at h
  · by_cases hl : isLepId ps i = true
    · rw [if_pos hl]
      dsimp only
      split
      · rfl
      · rfl
    · rw [if_neg hl]
      exact h

theorem chooseRepAux_isSome (ptOf : V4 → DV) (ps : List Cand) :
    ∀ (cs : List ℕ) (acc : Option ℕ), acc.isSome = true →
      (cs.foldl (repStep ptOf ps) acc).isSome = true
  | [], _, h => h
  | i :: cs, acc, h =>
    chooseRepAux_isSome ptOf ps cs (repStep ptOf ps acc i)
      (repStep_isSome ptOf ps acc i h)

theorem chooseRep_none_iff (ptOf : V4 → DV) (ps : List Cand) :
    ∀ (cs : List ℕ), chooseRep ptOf ps cs = none ↔ lepConsts ps cs = []
  | [] => by simp [chooseRep, lepConsts]
  | i :: cs => by
    by_cases hl : isLepId ps i = true
    · constructor
      · intro h
        exfalso
        have h1 : chooseRep ptOf ps (i :: cs)
            = cs.foldl (repStep ptOf ps) (some i) := by
          show (i :: cs).foldl _ none = _
          rw [List.foldl_cons]
          congr 1
          simp [repStep, hl]
        have := chooseRepAux_isSome ptOf ps cs (some i) rfl
        rw [← h1, h] at this
        simp at this
      · intro h
        exfalso
        have : i ∈ lepConsts ps (i :: cs) := by
          simp [lepConsts, List.filter_cons, hl]
        rw [h] at this
        simp at this
    · have h1 : chooseRep ptOf ps (i :: cs) = chooseRep ptOf ps cs := by
        show (i :: cs).foldl _ none = _
        rw [List.foldl_cons]
        congr 1
        simp [repStep, hl]
      have h2 : lepConsts ps (i :: cs) = lepConsts ps cs := by
        simp [lepConsts, List.filter_cons, hl]
      rw [h1, h2]
      exact chooseRep_none_iff ptOf ps cs

theorem chooseRep_snoc (ptOf : V4 → DV) (ps : List Cand) (cs : List ℕ)
    (i : ℕ) :
    chooseRep ptOf ps (cs ++ [i])
      = repStep ptOf ps (chooseRep ptOf ps cs) i := by
  unfold chooseRep
  rw [List.foldl_append]
  rfl

theorem lepConsts_snoc (ps : List Cand) (cs : List ℕ) (i : ℕ) :
    lepConsts ps (cs ++ [i])
      = lepConsts ps cs ++ (if isLepId ps i then [i] else []) := by
  unfold lepConsts
  rw [List.filter_append]
  congr 1
  by_cases hl : isLepId ps i = true
  · simp [List.filter_cons, hl]
  · simp [List.filter_cons, hl]

theorem chooseRep_eq_lastArgmax (ptOf : V4 → DV) (ps : List Cand)
    (cs : List ℕ)
    (hnan : ∀ i ∈ lepConsts ps cs, ptOf (ps.getD i cand0).p4 ≠ DV.nan) :
    chooseRep ptOf ps cs = lastArgmaxRep ptOf ps cs := by
  induction cs using List.reverseRecOn with
  | nil => rfl
  | append_singleton cs i ih =>
    by_cases hlep : isLepId ps i = true
    · have hl : lepConsts ps (cs ++ [i]) = lepConsts ps cs ++ [i] := by
        rw [lepConsts_snoc, if_pos hlep]
      have hnanL : ∀ j ∈ lepConsts ps cs, ptOf (ps.getD j cand0).p4 ≠ DV.nan :=
        fun j hj => hnan j (by rw [hl]; exact List.mem_append_left _ hj)
      have hnanI : ptOf (ps.getD i cand0).p4 ≠ DV.nan :=
        hnan i (by rw [hl]; exact List.mem_append_right _ (by simp))
      rcases hcr : chooseRep ptOf ps cs with _ | a
      · have hL0 : lepConsts ps cs = [] := (chooseRep_none_iff ptOf ps cs).mp hcr
        have h1 : chooseRep ptOf ps (cs ++ [i]) = some i := by
          rw [chooseRep_snoc, hcr]
          simp [repStep, hlep]
        rw [h1]
        unfold lastArgmaxRep
        rw [hl, hL0, List.nil_append, List.reverse_singleton]
        symm
        apply List.find?_cons_of_pos
        simp [gtDV_self]
      · have hlast : List.find? (fun x => (lepConsts ps cs).all (fun j =>
            ! gtDV (ptOf (ps.getD j cand0).p4) (ptOf (ps.getD x cand0).p4)))
              (lepConsts ps cs).reverse = some a := by
          have := hcr.symm.trans (ih hnanL)
          unfold lastArgmaxRep at this
          exact this.symm
        have hmemA : a ∈ lepConsts ps cs :=
          List.mem_reverse.mp (List.mem_of_find?_eq_some hlast)
        have hpredA : ∀ j ∈ lepConsts ps cs,
            gtDV (ptOf (ps.getD j cand0).p4) (ptOf (ps.getD a cand0).p4)
              = false := by
          have := List.find?_some hlast
          rw [List.all_eq_true] at this
          intro j hj
          have hj2 := this j hj
          simpa using hj2
        have hnanA : ptOf (ps.getD a cand0).p4 ≠ DV.nan := hnanL a hmemA
        by_cases hcmp : gtDV (ptOf (ps.getD a cand0).p4)
            (ptOf (ps.getD i cand0).p4) = true
        · have h1 : chooseRep ptOf ps (cs ++ [i]) = some a := by
            rw [chooseRep_snoc, hcr]
            unfold repStep
            rw [if_pos hlep]
            dsimp only
            rw [if_pos hcmp]
          rw [h1]
          unfold lastArgmaxRep
          rw [hl, List.reverse_append, List.reverse_singleton,
            List.singleton_append]
          have hpredI : ¬ ((lepConsts ps cs ++ [i]).all (fun j =>
              ! gtDV (ptOf (ps.getD j cand0).p4) (ptOf (ps.getD i cand0).p4))
                = true) := by
            intro hall
            rw [List.all_eq_true] at hall
            have := hall a (List.mem_append_left _ hmemA)
            rw [hcmp] at this
            simp at this
          symm
          refine Eq.trans (List.find?_cons_of_neg _ hpredI)
            (Eq.trans (find?_ext_mem (lepConsts ps cs).reverse ?_) hlast)
          intro x hx
          have hxm : x ∈ lepConsts ps cs := List.mem_reverse.mp hx
          have hnanX : ptOf (ps.getD x cand0).p4 ≠ DV.nan := hnanL x hxm
          rw [List.all_append]
          rcases hallx : (lepConsts ps cs).all (fun j =>
              ! gtDV (ptOf (ps.getD j cand0).p4)
                (ptOf (ps.getD x cand0).p4)) with _ | _
          · rw [Bool.false_and]
          · have hax : gtDV (ptOf (ps.getD a cand0).p4)
                (ptOf (ps.getD x cand0).p4) = false := by
              have := List.all_eq_true.mp hallx a hmemA
              simpa using this
            have hr1 : rank (ptOf (ps.getD a cand0).p4)
                ≤ rank (ptOf (ps.getD x cand0).p4) :=
              (gtDV_false_rank hnanA hnanX).mp hax
            have hr2 : rank (ptOf (ps.getD i cand0).p4)
                < rank (ptOf (ps.getD a cand0).p4) :=
              (gtDV_rank hnanA hnanI).mp hcmp
            have hix : gtDV (ptOf (ps.getD i cand0).p4)
                (ptOf (ps.getD x cand0).p4) = false :=
              (gtDV_false_rank hnanI hnanX).mpr (le_of_lt
                (lt_of_lt_of_le hr2 hr1))
            rw [Bool.true_and]
            simp only [List.all_cons, List.all_nil, Bool.and_true,
              Bool.not_eq_true']
            exact hix
        · have h1 : chooseRep ptOf ps (cs ++ [i]) = some i := by
            rw [chooseRep_snoc, hcr]
            unfold repStep
            rw [if_pos hlep]
            dsimp only
            rw [if_neg hcmp]
          rw [h1]
          unfold lastArgmaxRep
          rw [hl, List.reverse_append, List.reverse_singleton,
            List.singleton_append]
          have hcmpF : gtDV (ptOf (ps.getD a cand0).p4)
              (ptOf (ps.getD i cand0).p4) = false := by
            rcases hv : gtDV (ptOf (ps.getD a cand0).p4)
                (ptOf (ps.getD i cand0).p4) with _ | _
            · rfl
            · exact absurd hv hcmp
          have hrAI : rank (ptOf (ps.getD a cand0).p4)
              ≤ rank (ptOf (ps.getD i cand0).p4) :=
            (gtDV_false_rank hnanA hnanI).mp hcmpF
          have hpredI : ((lepConsts ps cs ++ [i]).all (fun j =>
              ! gtDV (ptOf (ps.getD j cand0).p4) (ptOf (ps.getD i cand0).p4))
                = true) := by
            rw [List.all_eq_true]
            intro j hj
            rcases List.mem_append.mp hj with hjL | hjI
            · have hja : gtDV (ptOf (ps.getD j cand0).p4)
                  (ptOf (ps.getD a cand0).p4) = false := hpredA j hjL
              have hnanJ : ptOf (ps.getD j cand0).p4 ≠ DV.nan := hnanL j hjL
              have : gtDV (ptOf (ps.getD j cand0).p4)
                  (ptOf (ps.getD i cand0).p4) = false :=
                (gtDV_false_rank hnanJ hnanI).mpr
                  (le_trans ((gtDV_false_rank hnanJ hnanA).mp hja) hrAI)
              simp only [Bool.not_eq_true']
              exact this
            · have : j = i := by simpa using hjI
              subst this
              simp [gtDV_self]
          symm
          apply List.find?_cons_of_pos
          exact hpredI
    · have h1 : chooseRep ptOf ps (cs ++ [i]) = chooseRep ptOf ps cs := by
        rw [chooseRep_snoc]
        simp [repStep, hlep]
      have h2 : lepConsts ps (cs ++ [i]) = lepConsts ps cs := by
        rw [lepConsts_snoc, if_neg hlep, List.append_nil]
      have hnanL : ∀ j ∈ lepConsts ps cs, ptOf (ps.getD j cand0).p4 ≠ DV.nan :=
        fun j hj => hnan j (h2 ▸ hj)
      rw [h1]
      unfold lastArgmaxRep
      rw [h2]
      have := ih hnanL
      unfold lastArgmaxRep at this
      exact this

end PseudoTop

namespace PseudoTop

theorem dileptonBlock_of_samesign (massOf : V4 → ℚ) (wM tM : ℚ)
    (leptons : List Dressed) (nus : List GenP) (jets : List Jet)
    (bjetIdxs : List ℕ)
    (hq : 0 < (leptons.getD 0 dressed0).charge
      * (leptons.getD 1 dressed0).charge) :
    dileptonBlock massOf wM tM leptons nus jets bjetIdxs = [] := by
  simp only [dileptonBlock]
  rw [if_pos hq]

theorem dileptonBlock_of_nuNone (massOf : V4 → ℚ) (wM tM : ℚ)
    (leptons : List Dressed) (nus : List GenP) (jets : List Jet)
    (bjetIdxs : List ℕ)
    (h1 : (selectPair (dlNuCost massOf wM (dlLep1 leptons) (dlLep2 leptons)
        nus) (List.range nus.length) (List.range nus.length)).2 = none) :
    dileptonBlock massOf wM tM leptons nus jets bjetIdxs = [] := by
  simp only [dileptonBlock]
  by_cases hq : 0 < (leptons.getD 0 dressed0).charge
      * (leptons.getD 1 dressed0).charge
  · rw [if_pos hq]
  · rw [if_neg hq]
    rw [if_pos (le_of_eq (selectPair_none_fst _ _ _ h1).symm)]

theorem dileptonBlock_of_bNone (massOf : V4 → ℚ) (wM tM : ℚ)
    (leptons : List Dressed) (nus : List GenP) (jets : List Jet)
    (bjetIdxs : List ℕ) (i j : ℕ)
    (h1 : (selectPair (dlNuCost massOf wM (dlLep1 leptons) (dlLep2 leptons)
        nus) (List.range nus.length) (List.range nus.length)).2 = some (i, j))
    (h2 : (selectPair (wbCost massOf tM jets
        (vadd (dlLep1 leptons).p4 (nus.getD i g0).p4)
        (vadd (dlLep2 leptons).p4 (nus.getD j g0).p4)) bjetIdxs bjetIdxs).2
          = none) :
    dileptonBlock massOf wM tM leptons nus jets bjetIdxs = [] := by
  simp only [dileptonBlock]
  by_cases hq : 0 < (leptons.getD 0 dressed0).charge
      * (leptons.getD 1 dressed0).charge
  · rw [if_pos hq]
  · rw [if_neg hq]
    have hs1 : (selectPair (dlNuCost massOf wM (dlLep1 leptons)
        (dlLep2 leptons) nus) (List.range nus.length)
          (List.range nus.length)).2.isSome = true := by
      rw [h1]
      rfl
    rw [if_neg (not_le.mpr (selectPair_fst_lt _ _ _ hs1))]
    simp only [h1]
    rw [if_pos (le_of_eq (selectPair_none_fst _ _ _ h2).symm)]

theorem dileptonBlock_eq (massOf : V4 → ℚ) (wM tM : ℚ)
    (leptons : List Dressed) (nus : List GenP) (jets : List Jet)
    (bjetIdxs : List ℕ) (i j k l : ℕ)
    (hq : ¬ 0 < (leptons.getD 0 dressed0).charge
      * (leptons.getD 1 dressed0).charge)
    (h1 : (selectPair (dlNuCost massOf wM (dlLep1 leptons) (dlLep2 leptons)
        nus) (List.range nus.length) (List.range nus.length)).2 = some (i, j))
    (h2 : (selectPair (wbCost massOf tM jets
        (vadd (dlLep1 leptons).p4 (nus.getD i g0).p4)
        (vadd (dlLep2 leptons).p4 (nus.getD j g0).p4)) bjetIdxs bjetIdxs).2
          = some (k, l)) :
    dileptonBlock massOf wM tM leptons nus jets bjetIdxs
      = dlOutput leptons nus jets i j k l := by
  simp only [dileptonBlock]
  rw [if_neg hq]
  have hs1 : (selectPair (dlNuCost massOf wM (dlLep1 leptons)
      (dlLep2 leptons) nus) (List.range nus.length)
        (List.range nus.length)).2.isSome = true := by
    rw [h1]
    rfl
  rw [if_neg (not_le.mpr (selectPair_fst_lt _ _ _ hs1))]
  simp only [h1]
  have hs2 : (selectPair (wbCost massOf tM jets
      (vadd (dlLep1 leptons).p4 (nus.getD i g0).p4)
      (vadd (dlLep2 leptons).p4 (nus.getD j g0).p4)) bjetIdxs
        bjetIdxs).2.isSome = true := by
    rw [h2]
    rfl
  rw [if_neg (not_le.mpr (selectPair_fst_lt _ _ _ hs2))]
  simp only [h2]
  rfl

theorem semilepBlock_of_wNone (massOf : V4 → ℚ) (wM tM : ℚ)
    (leptons : List Dressed) (nus : List GenP) (jets : List Jet)
    (bjetIdxs ljetIdxs : List ℕ)
    (h1 : (selectTriple (slCost massOf wM (leptons.getD 0 dressed0) nus jets)
        (List.range nus.length) ljetIdxs).2 = none) :
    semilepBlock massOf wM tM leptons nus jets bjetIdxs ljetIdxs = [] := by
  simp only [semilepBlock]
  rw [if_pos (le_of_eq (selectTriple_none_fst _ _ _ h1).symm)]

theorem semilepBlock_of_bNone (massOf : V4 → ℚ) (wM tM : ℚ)
    (leptons : List Dressed) (nus : List GenP) (jets : List Jet)
    (bjetIdxs ljetIdxs : List ℕ) (i j1 j2 : ℕ)
    (h1 : (selectTriple (slCost massOf wM (leptons.getD 0 dressed0) nus jets)
        (List.range nus.length) ljetIdxs).2 = some (i, j1, j2))
    (h2 : (selectPair (wbCost massOf tM jets
        (vadd (leptons.getD 0 dressed0).p4 (nus.getD i g0).p4)
        (vadd (jets.getD j1 jet0).p4 (jets.getD j2 jet0).p4))
          bjetIdxs bjetIdxs).2 = none) :
    semilepBlock massOf wM tM leptons nus jets bjetIdxs ljetIdxs = [] := by
  simp only [semilepBlock]
  have hs1 : (selectTriple (slCost massOf wM (leptons.getD 0 dressed0) nus
      jets) (List.range nus.length) ljetIdxs).2.isSome = true := by
    rw [h1]
    rfl
  rw [if_neg (not_le.mpr (selectTriple_fst_lt _ _ _ hs1))]
  simp only [h1]
  rw [if_pos (le_of_eq (selectPair_none_fst _ _ _ h2).symm)]

theorem semilepBlock_eq (massOf : V4 → ℚ) (wM tM : ℚ)
    (leptons : List Dressed) (nus : List GenP) (jets : List Jet)
    (bjetIdxs ljetIdxs : List ℕ) (i j1 j2 k l : ℕ)
    (h1 : (selectTriple (slCost massOf wM (leptons.getD 0 dressed0) nus jets)
        (List.range nus.length) ljetIdxs).2 = some (i, j1, j2))
    (h2 : (selectPair (wbCost massOf tM jets
        (vadd (leptons.getD 0 dressed0).p4 (nus.getD i g0).p4)
        (vadd (jets.getD j1 jet0).p4 (jets.getD j2 jet0).p4))
          bjetIdxs bjetIdxs).2 = some (k, l)) :
    semilepBlock massOf wM tM leptons nus jets bjetIdxs ljetIdxs
      = slOutput leptons nus jets i j1 j2 k l := by
  simp only [semilepBlock]
  have hs1 : (selectTriple (slCost massOf wM (leptons.getD 0 dressed0) nus
      jets) (List.range nus.length) ljetIdxs).2.isSome = true := by
    rw [h1]
    rfl
  rw [if_neg (not_le.mpr (selectTriple_fst_lt _ _ _ hs1))]
  simp only [h1]
  have hs2 : (selectPair (wbCost massOf tM jets
      (vadd (leptons.getD 0 dressed0).p4 (nus.getD i g0).p4)
      (vadd (jets.getD j1 jet0).p4 (jets.getD j2 jet0).p4))
        bjetIdxs bjetIdxs).2.isSome = true := by
    rw [h2]
    rfl
  rw [if_neg (not_le.mpr (selectPair_fst_lt _ _ _ hs2))]
  simp only [h2]
  rfl

theorem dileptonBlock_cases (massOf : V4 → ℚ) (wM tM : ℚ)
    (leptons : List Dressed) (nus : List GenP) (jets : List Jet)
    (bjetIdxs : List ℕ) :
    dileptonBlock massOf wM tM leptons nus jets bjetIdxs = []
      ∨ (dileptonBlock massOf wM tM leptons nus jets bjetIdxs).length = 10 := by
  by_cases hq : 0 < (leptons.getD 0 dressed0).charge
      * (leptons.getD 1 dressed0).charge
  · exact Or.inl (dileptonBlock_of_samesign massOf wM tM leptons nus jets
      bjetIdxs hq)
  · rcases h1 : (selectPair (dlNuCost massOf wM (dlLep1 leptons)
        (dlLep2 leptons) nus) (List.range nus.length)
          (List.range nus.length)).2 with _ | ⟨i, j⟩
    · exact Or.inl (dileptonBlock_of_nuNone massOf wM tM leptons nus jets
        bjetIdxs h1)
    · rcases h2 : (selectPair (wbCost massOf tM jets
          (vadd (dlLep1 leptons).p4 (nus.getD i g0).p4)
          (vadd (dlLep2 leptons).p4 (nus.getD j g0).p4)) bjetIdxs
            bjetIdxs).2 with _ | ⟨k, l⟩
      · exact Or.inl (dileptonBlock_of_bNone massOf wM tM leptons nus jets
          bjetIdxs i j h1 h2)
      · right
        rw [dileptonBlock_eq massOf wM tM leptons nus jets bjetIdxs i j k l
          hq h1 h2]
        rfl

theorem semilepBlock_cases (massOf : V4 → ℚ) (wM tM : ℚ)
    (leptons : List Dressed) (nus : List GenP) (jets : List Jet)
    (bjetIdxs ljetIdxs : List ℕ) :
    semilepBlock massOf wM tM leptons nus jets bjetIdxs ljetIdxs = []
      ∨ (semilepBlock massOf wM tM leptons nus jets bjetIdxs ljetIdxs).length
        = 10 := by
  rcases h1 : (selectTriple (slCost massOf wM (leptons.getD 0 dressed0) nus
      jets) (List.range nus.length) ljetIdxs).2 with _ | ⟨i, j1, j2⟩
  · exact Or.inl (semilepBlock_of_wNone massOf wM tM leptons nus jets
      bjetIdxs ljetIdxs h1)
  · rcases h2 : (selectPair (wbCost massOf tM jets
        (vadd (leptons.getD 0 dressed0).p4 (nus.getD i g0).p4)
        (vadd (jets.getD j1 jet0).p4 (jets.getD j2 jet0).p4))
          bjetIdxs bjetIdxs).2 with _ | ⟨k, l⟩
    · exact Or.inl (semilepBlock_of_bNone massOf wM tM leptons nus jets
        bjetIdxs ljetIdxs i j1 j2 h1 h2)
    · right
      rw [semilepBlock_eq massOf wM tM leptons nus jets bjetIdxs ljetIdxs
        i j1 j2 k l h1 h2]
      rfl

theorem runCombination_cases (massOf : V4 → ℚ) (wM tM : ℚ)
    (leptons : List Dressed) (nus : List GenP) (jets : List Jet)
    (bjetIdxs ljetIdxs : List ℕ) :
    runCombination massOf wM tM leptons nus jets bjetIdxs ljetIdxs = []
      ∨ (runCombination massOf wM tM leptons nus jets bjetIdxs
          ljetIdxs).length = 10 := by
  unfold runCombination
  by_cases hb : bjetIdxs.length < 2
  · rw [if_pos hb]
    exact Or.inl rfl
  · rw [if_neg hb]
    by_cases h2 : leptons.length = 2 ∧ 2 ≤ nus.length
    · rw [if_pos h2]
      exact dileptonBlock_cases massOf wM tM leptons nus jets bjetIdxs
    · rw [if_neg h2]
      by_cases h1 : leptons.length = 1 ∧ 1 ≤ nus.length
      · rw [if_pos h1]
        exact semilepBlock_cases massOf wM tM leptons nus jets bjetIdxs
          ljetIdxs
      · rw [if_neg h1]
        exact Or.inl rfl

theorem linkGraph_length (l : List GenP) : (linkGraph l).length = l.length := by
  unfold linkGraph
  by_cases h : l.length = 10
  · rw [if_pos h, List.length_mapIdx]
  · rw [if_neg h]

end PseudoTop

namespace PseudoTop

theorem mem_leptonIdxs_status (ps : List Cand) (i : ℕ)
    (h : i ∈ leptonIdxsOf ps) : (ps.getD i cand0).status = 1 := by
  rw [leptonIdxsOf, List.mem_filter] at h
  have h2 := h.2
  rw [Bool.and_eq_true] at h2
  have hg := h2.1
  rw [classGate, Bool.and_eq_true, Bool.and_eq_true, Bool.and_eq_true] at hg
  exact of_decide_eq_true hg.1.1.1

theorem mem_bHadronIdxs_status (ps : List Cand) (i : ℕ)
    (h : i ∈ bHadronIdxsOf ps) : (ps.getD i cand0).status ≠ 1 := by
  rw [bHadronIdxsOf, List.mem_filter] at h
  have h2 := h.2
  rw [Bool.and_eq_true] at h2
  exact of_decide_eq_true h2.1

theorem mem_fjLepInputs (ptOf : V4 → DV) (ps : List Cand) (pr : ℕ × V4)
    (h : pr ∈ fjLepInputsOf ptOf ps) :
    pr.1 ∈ leptonIdxsOf ps
      ∧ badPtDV (ptOf (ps.getD pr.1 cand0).p4) = false
      ∧ pr.2 = (ps.getD pr.1 cand0).p4 := by
  rw [fjLepInputsOf, List.mem_filterMap] at h
  obtain ⟨a, ha, hf⟩ := h
  by_cases hb : badPtDV (ptOf (ps.getD a cand0).p4) = true
  · rw [if_pos hb] at hf
    exact absurd hf (by simp)
  · rw [if_neg hb] at hf
    have := Option.some.inj hf
    subst this
    exact ⟨ha, Bool.not_eq_true _ ▸ hb, rfl⟩

theorem mem_fjJetMainInputs (ptOf : V4 → DV) (ps : List Cand)
    (lepDau : List ℕ) (pr : ℕ × V4)
    (h : pr ∈ fjJetMainInputsOf ptOf ps lepDau) :
    (ps.getD pr.1 cand0).status = 1 ∧ lepDau.contains pr.1 = false
      ∧ badPtDV (ptOf (ps.getD pr.1 cand0).p4) = false := by
  rw [fjJetMainInputsOf, List.mem_filterMap] at h
  obtain ⟨a, ha, hf⟩ := h
  by_cases h1 : (ps.getD a cand0).status ≠ 1
  · rw [if_pos h1] at hf
    exact absurd hf (by simp)
  · rw [if_neg h1] at hf
    by_cases h2 : badPtDV (ptOf (ps.getD a cand0).p4) = true
    · rw [if_pos h2] at hf
      exact absurd hf (by simp)
    · rw [if_neg h2] at hf
      by_cases h3 : absPdg (ps.getD a cand0) = 12 ∨ absPdg (ps.getD a cand0)
          = 14 ∨ absPdg (ps.getD a cand0) = 16
      · rw [if_pos h3] at hf
        exact absurd hf (by simp)
      · rw [if_neg h3] at hf
        by_cases h4 : lepDau.contains a = true
        · rw [if_pos h4] at hf
          exact absurd hf (by simp)
        · rw [if_neg h4] at hf
          have := Option.some.inj hf
          subst this
          exact ⟨not_not.mp h1, Bool.not_eq_true _ ▸ h4,
            Bool.not_eq_true _ ▸ h2⟩

theorem mem_ghostInputs (ptOf : V4 → DV) (pOf : V4 → ℚ) (ps : List Cand)
    (bIdxs : List ℕ) (pr : ℕ × V4)
    (h : pr ∈ ghostInputsOf ptOf pOf ps bIdxs) :
    pr.1 ∈ bIdxs ∧ badPtDV (ptOf (ps.getD pr.1 cand0).p4) = false := by
  rw [ghostInputsOf, List.mem_filterMap] at h
  obtain ⟨a, ha, hf⟩ := h
  by_cases hb : badPtDV (ptOf (ps.getD a cand0).p4) = true
  · rw [if_pos hb] at hf
    exact absurd hf (by simp)
  · rw [if_neg hb] at hf
    have := Option.some.inj hf
    subst this
    exact ⟨ha, Bool.not_eq_true _ ▸ hb⟩

theorem buildJets_mem_aux (maxEta : ℚ) (bIdxs : List ℕ) :
    ∀ (cls : List Cluster) (acc : List Jet × List ℕ × List ℕ) (jet : Jet),
      jet ∈ (cls.foldl (jetStep maxEta bIdxs) acc).1 →
        jet ∈ acc.1 ∨ ∃ c ∈ cls, jet.constituents = c.constituents
  | [], _, _, h => Or.inl h
  | c :: cls, acc, jet, h => by
    rcases buildJets_mem_aux maxEta bIdxs cls (jetStep maxEta bIdxs acc c)
        jet h with hacc | ⟨c2, hc2, he⟩
    · simp only [jetStep] at hacc
      by_cases heta : |c.eta| > maxEta
      · rw [if_pos heta] at hacc
        exact Or.inl hacc
      · rw [if_neg heta] at hacc
        by_cases hB : c.constituents.any (fun i => bIdxs.contains i) = true
        · rw [if_pos hB] at hacc
          rcases List.mem_append.mp hacc with h1 | h1
          · exact Or.inl h1
          · exact Or.inr ⟨c, by simp, by rw [List.mem_singleton.mp h1]⟩
        · rw [if_neg hB] at hacc
          rcases List.mem_append.mp hacc with h1 | h1
          · exact Or.inl h1
          · exact Or.inr ⟨c, by simp, by rw [List.mem_singleton.mp h1]⟩
    · exact Or.inr ⟨c2, by simp [hc2], he⟩

theorem buildJets_constituents (maxEta : ℚ) (bIdxs : List ℕ)
    (cls : List Cluster) (jet : Jet)
    (h : jet ∈ (buildJets maxEta bIdxs cls).1) :
    ∃ c ∈ cls, jet.constituents = c.constituents := by
  rcases buildJets_mem_aux maxEta bIdxs cls ([], [], []) jet h with h1 | h1
  · exact absurd h1 (by simp)
  · exact h1

theorem mem_lepDauIdxs (ptOf : V4 → DV) (ps : List Cand) (maxEta : ℚ)
    (cls : List Cluster) (i : ℕ)
    (h : i ∈ lepDauIdxsOf ptOf ps maxEta cls) :
    ∃ c ∈ cls, i ∈ c.constituents := by
  rw [lepDauIdxsOf, List.mem_flatMap] at h
  obtain ⟨c, hc, hic⟩ := h
  exact ⟨c, List.mem_of_mem_filter hc, hic⟩

end PseudoTop

namespace PseudoTop

theorem produce_pseudoTop (cfg : Cfg) (kin : Kin)
    (lepCluster jetCluster : List (ℕ × V4) → List Cluster) (ps : List Cand) :
    (produce cfg kin lepCluster jetCluster ps).pseudoTop
      = linkGraph (runCombination kin.massOf cfg.wMass cfg.tMass
          (dressedOf kin.ptOf ps cfg.leptonMaxEta
            (lepCluster (fjLepInputsOf kin.ptOf ps)))
          (neutrinosOf kin.ptOf ps)
          (buildJets cfg.jetMaxEta (bHadronIdxsOf ps)
            (jetCluster (fjJetInputsOf kin.ptOf kin.pOf ps
              (lepDauIdxsOf kin.ptOf ps cfg.leptonMaxEta
                (lepCluster (fjLepInputsOf kin.ptOf ps)))
              (bHadronIdxsOf ps)))).1
          (buildJets cfg.jetMaxEta (bHadronIdxsOf ps)
            (jetCluster (fjJetInputsOf kin.ptOf kin.pOf ps
              (lepDauIdxsOf kin.ptOf ps cfg.leptonMaxEta
                (lepCluster (fjLepInputsOf kin.ptOf ps)))
              (bHadronIdxsOf ps)))).2.1
          (buildJets cfg.jetMaxEta (bHadronIdxsOf ps)
            (jetCluster (fjJetInputsOf kin.ptOf kin.pOf ps
              (lepDauIdxsOf kin.ptOf ps cfg.leptonMaxEta
                (lepCluster (fjLepInputsOf kin.ptOf ps)))
              (bHadronIdxsOf ps)))).2.2) := rfl

theorem produce_neutrinos (cfg : Cfg) (kin : Kin)
    (lepCluster jetCluster : List (ℕ × V4) → List Cluster) (ps : List Cand) :
    (produce cfg kin lepCluster jetCluster ps).neutrinos
      = sortBy (nuLe kin.ptOf) (nuRawOf ps) := rfl

theorem produce_jets (cfg : Cfg) (kin : Kin)
    (lepCluster jetCluster : List (ℕ × V4) → List Cluster) (ps : List Cand) :
    (produce cfg kin lepCluster jetCluster ps).jets
      = (buildJets cfg.jetMaxEta (bHadronIdxsOf ps)
          (jetCluster (fjJetInputsOf kin.ptOf kin.pOf ps
            (lepDauIdxsOf kin.ptOf ps cfg.leptonMaxEta
              (lepCluster (fjLepInputsOf kin.ptOf ps)))
            (bHadronIdxsOf ps)))).1 := rfl

end PseudoTop

namespace PseudoTop

/-- C1: for every event, the pseudo-top collection emitted by produce has
size exactly 0 or exactly 10; no other size is emitted and no partial decay
tree is produced. -/
theorem claim_C1 (cfg : Cfg) (kin : Kin)
    (lepCluster jetCluster : List (ℕ × V4) → List Cluster) (ps : List Cand) :
    (produce cfg kin lepCluster jetCluster ps).pseudoTop.length = 0
      ∨ (produce cfg kin lepCluster jetCluster ps).pseudoTop.length = 10 := by
  rw [produce_pseudoTop, linkGraph_length]
  rcases runCombination_cases kin.massOf cfg.wMass cfg.tMass
      (dressedOf kin.ptOf ps cfg.leptonMaxEta
        (lepCluster (fjLepInputsOf kin.ptOf ps)))
      (neutrinosOf kin.ptOf ps)
      (buildJets cfg.jetMaxEta (bHadronIdxsOf ps)
        (jetCluster (fjJetInputsOf kin.ptOf kin.pOf ps
          (lepDauIdxsOf kin.ptOf ps cfg.leptonMaxEta
            (lepCluster (fjLepInputsOf kin.ptOf ps)))
          (bHadronIdxsOf ps)))).1
      (buildJets cfg.jetMaxEta (bHadronIdxsOf ps)
        (jetCluster (fjJetInputsOf kin.ptOf kin.pOf ps
          (lepDauIdxsOf kin.ptOf ps cfg.leptonMaxEta
            (lepCluster (fjLepInputsOf kin.ptOf ps)))
          (bHadronIdxsOf ps)))).2.1
      (buildJets cfg.jetMaxEta (bHadronIdxsOf ps)
        (jetCluster (fjJetInputsOf kin.ptOf kin.pOf ps
          (lepDauIdxsOf kin.ptOf ps cfg.leptonMaxEta
            (lepCluster (fjLepInputsOf kin.ptOf ps)))
          (bHadronIdxsOf ps)))).2.2 with h | h
  · left
    rw [h]
    rfl
  · right
    exact h

/-- C4: isBHadron on an absolute species code returns false for codes at most
100 and for codes at least 10^9; otherwise, with q3 the tens digit, q2 the
hundreds digit and q1 the thousands digit, it returns true exactly when q3 is
nonzero and either (q1 = 0 and q2 = 5) or q1 = 5; and isBHadron on a particle
holds exactly when the digit test passes for the particle and fails for the
absolute code of every direct daughter. -/
theorem claim_C4 (code : ℕ) (ps : List Cand) (p : Cand) :
    (code ≤ 100 → isBHadronCode code = false)
    ∧ (1000000000 ≤ code → isBHadronCode code = false)
    ∧ (100 < code → code < 1000000000 →
        (isBHadronCode code = true ↔ ((code / 10) % 10 ≠ 0
          ∧ (((code / 1000) % 10 = 0 ∧ (code / 100) % 10 = 5)
            ∨ (code / 1000) % 10 = 5))))
    ∧ (isBHadronCand ps p = true ↔ (isBHadronCode (absPdg p) = true
        ∧ ∀ di ∈ p.daughters,
          isBHadronCode (absPdg (ps.getD di cand0)) = false)) := by
  refine ⟨?_, ?_, ?_, ?_⟩
  · intro h
    simp only [isBHadronCode]
    rw [if_pos h]
  · intro h
    simp only [isBHadronCode]
    rw [if_neg (by omega), if_pos h]
  · intro h1 h2
    simp only [isBHadronCode]
    rw [if_neg (by omega), if_neg (by omega)]
    constructor
    · intro h
      by_cases h3 : (code / 10) % 10 = 0
      · rw [if_pos h3] at h
        exact absurd h (by simp)
      · rw [if_neg h3] at h
        by_cases h4 : (code / 1000) % 10 = 0 ∧ (code / 100) % 10 = 5
        · exact ⟨h3, Or.inl h4⟩
        · rw [if_neg h4] at h
          by_cases h5 : (code / 1000) % 10 = 5
          · exact ⟨h3, Or.inr h5⟩
          · rw [if_neg h5] at h
            exact absurd h (by simp)
    · rintro ⟨h3, h45⟩
      rw [if_neg h3]
      rcases h45 with h4 | h5
      · rw [if_pos h4]
      · by_cases h4 : (code / 1000) % 10 = 0 ∧ (code / 100) % 10 = 5
        · rw [if_pos h4]
        · rw [if_neg h4, if_pos h5]
  · rw [isBHadronCand, Bool.and_eq_true, List.all_eq_true]
    constructor
    · rintro ⟨ha, hb⟩
      refine ⟨ha, ?_⟩
      intro di hdi
      have := hb di hdi
      simpa using this
    · rintro ⟨ha, hb⟩
      refine ⟨ha, ?_⟩
      intro di hdi
      simpa using hb di hdi

/-- Witness for C4 at the concrete species code 521 (a B meson). -/
theorem claim_C4_witness :
    100 < 521 ∧ 521 < 1000000000 ∧ isBHadronCode 521 = true :=
  ⟨by decide, by decide,
    ((claim_C4 521 [] cand0).2.2.1 (by decide) (by decide)).mpr (by decide)⟩

/-- C10: in every mass-minimisation search of the combinator, a combination
is selected exactly when some enumerated combination has total deviation
strictly below the sentinel 1e9; when every enumerated deviation is at least
the sentinel, the selection stays empty and the pseudo-top output of the
branch is empty even though candidate combinations may exist. -/
theorem claim_C10 (cost : ℕ → ℕ → ℚ) (cost3 : ℕ → ℕ → ℕ → ℚ)
    (is js : List ℕ) (massOf : V4 → ℚ) (wM tM : ℚ)
    (leptons : List Dressed) (nus : List GenP) (jets : List Jet)
    (bjetIdxs ljetIdxs : List ℕ) :
    ((selectPair cost is js).2 = none
      ↔ ∀ i ∈ is, ∀ j ∈ js, j ≠ i → sentinel ≤ cost i j)
    ∧ ((selectPair cost is js).2.isSome = true
      ↔ ∃ i ∈ is, ∃ j ∈ js, j ≠ i ∧ cost i j < sentinel)
    ∧ ((selectTriple cost3 is js).2 = none
      ↔ ∀ i ∈ is, ∀ jk ∈ ordPairs js, sentinel ≤ cost3 i jk.1 jk.2)
    ∧ ((selectTriple cost3 is js).2.isSome = true
      ↔ ∃ i ∈ is, ∃ jk ∈ ordPairs js, cost3 i jk.1 jk.2 < sentinel)
    ∧ ((selectPair (dlNuCost massOf wM (dlLep1 leptons) (dlLep2 leptons) nus)
          (List.range nus.length) (List.range nus.length)).2 = none →
        dileptonBlock massOf wM tM leptons nus jets bjetIdxs = [])
    ∧ ((selectTriple (slCost massOf wM (leptons.getD 0 dressed0) nus jets)
          (List.range nus.length) ljetIdxs).2 = none →
        semilepBlock massOf wM tM leptons nus jets bjetIdxs ljetIdxs = []) :=
  ⟨selectPair_none_iff cost is js, selectPair_isSome_iff cost is js,
    selectTriple_none_iff cost3 is js, selectTriple_isSome_iff cost3 is js,
    dileptonBlock_of_nuNone massOf wM tM leptons nus jets bjetIdxs,
    semilepBlock_of_wNone massOf wM tM leptons nus jets bjetIdxs ljetIdxs⟩

/-- Witness for C10: an empty neutrino list makes every search return
nothing and the dilepton branch emit nothing. -/
theorem claim_C10_witness :
    (selectPair (dlNuCost (fun _ => 0) 0 (dlLep1 wLeps) (dlLep2 wLeps) [])
        (List.range ([] : List GenP).length)
        (List.range ([] : List GenP).length)).2 = none
    ∧ dileptonBlock (fun _ => 0) 0 0 wLeps [] wJets [0, 1] = [] := by
  have h : (selectPair (dlNuCost (fun _ => 0) 0 (dlLep1 wLeps)
      (dlLep2 wLeps) []) (List.range ([] : List GenP).length)
        (List.range ([] : List GenP).length)).2 = none := rfl
  exact ⟨h, (claim_C10 (fun _ _ => 0) (fun _ _ _ => 0) [] [] (fun _ => 0)
    0 0 wLeps [] wJets [0, 1] []).2.2.2.2.1 h⟩

end PseudoTop

namespace PseudoTop

/-- C2: in the dilepton branch, lepton slot 1 is the positively charged
dressed lepton and slot 2 the negative one, and each selection loop returns
the first-encountered combination attaining the minimal total mass deviation
over the loop-order enumeration (strict less-than against the running best,
outer index first), provided some enumerated combination beats the sentinel. -/
theorem claim_C2 (massOf : V4 → ℚ) (wM tM : ℚ) (leptons : List Dressed)
    (nus : List GenP) (jets : List Jet) (bjetIdxs : List ℕ) (w1v w2v : V4) :
    ((leptons.getD 0 dressed0).charge * (leptons.getD 1 dressed0).charge < 0 →
      0 < (dlLep1 leptons).charge ∧ (dlLep2 leptons).charge < 0)
    ∧ ((∃ p ∈ offPairs (List.range nus.length) (List.range nus.length),
          dlNuCost massOf wM (dlLep1 leptons) (dlLep2 leptons) nus p.1 p.2
            < sentinel) →
        (selectPair (dlNuCost massOf wM (dlLep1 leptons) (dlLep2 leptons) nus)
            (List.range nus.length) (List.range nus.length)).2
          = firstArgmin (fun p => dlNuCost massOf wM (dlLep1 leptons)
              (dlLep2 leptons) nus p.1 p.2)
            (offPairs (List.range nus.length) (List.range nus.length)))
    ∧ ((∃ p ∈ offPairs bjetIdxs bjetIdxs,
          wbCost massOf tM jets w1v w2v p.1 p.2 < sentinel) →
        (selectPair (wbCost massOf tM jets w1v w2v) bjetIdxs bjetIdxs).2
          = firstArgmin (fun p => wbCost massOf tM jets w1v w2v p.1 p.2)
            (offPairs bjetIdxs bjetIdxs)) := by
  refine ⟨?_, ?_, ?_⟩
  · intro hq
    by_cases h0 : 0 < (leptons.getD 0 dressed0).charge
    · refine ⟨?_, ?_⟩
      · rw [dlLep1, if_pos h0]
        exact h0
      · rw [dlLep2, if_pos h0]
        by_contra hc
        exact absurd hq (not_lt.mpr (mul_nonneg h0.le (not_lt.mp hc)))
    · have hne : (leptons.getD 0 dressed0).charge ≠ 0 := by
        intro he
        rw [he, zero_mul] at hq
        exact lt_irrefl 0 hq
      have h1 : (leptons.getD 0 dressed0).charge < 0 :=
        lt_of_le_of_ne (not_lt.mp h0) hne
      have h2 : 0 < (leptons.getD 1 dressed0).charge := by
        by_contra hc
        have hcc : (leptons.getD 1 dressed0).charge ≤ 0 := not_lt.mp hc
        exact absurd hq (not_lt.mpr (by nlinarith))
      refine ⟨?_, ?_⟩
      · rw [dlLep1, if_neg h0]
        exact h2
      · rw [dlLep2, if_neg h0]
        exact h1
  · intro hex
    exact selectPair_snd_eq _ _ _ hex
  · intro hex
    exact selectPair_snd_eq _ _ _ hex

/-- Witness for C2 at a concrete opposite-sign dilepton configuration with
two neutrinos. -/
theorem claim_C2_witness :
    ((wLeps.getD 0 dressed0).charge * (wLeps.getD 1 dressed0).charge < 0)
    ∧ (0 < (dlLep1 wLeps).charge ∧ (dlLep2 wLeps).charge < 0)
    ∧ (∃ p ∈ offPairs (List.range wNus.length) (List.range wNus.length),
        dlNuCost (fun _ => 0) 0 (dlLep1 wLeps) (dlLep2 wLeps) wNus p.1 p.2
          < sentinel)
    ∧ (selectPair (dlNuCost (fun _ => 0) 0 (dlLep1 wLeps) (dlLep2 wLeps)
          wNus) (List.range wNus.length) (List.range wNus.length)).2
        = firstArgmin (fun p => dlNuCost (fun _ => 0) 0 (dlLep1 wLeps)
            (dlLep2 wLeps) wNus p.1 p.2)
          (offPairs (List.range wNus.length) (List.range wNus.length)) := by
  have hq : (wLeps.getD 0 dressed0).charge * (wLeps.getD 1 dressed0).charge
      < 0 := by decide
  have hex : ∃ p ∈ offPairs (List.range wNus.length)
      (List.range wNus.length), dlNuCost (fun _ => 0) 0 (dlLep1 wLeps)
        (dlLep2 wLeps) wNus p.1 p.2 < sentinel :=
    ⟨(0, 1), by decide, by norm_num [dlNuCost, sentinel]⟩
  exact ⟨hq,
    (claim_C2 (fun _ => 0) 0 0 wLeps wNus wJets [0, 1] ⟨0, 0, 0, 0⟩
      ⟨0, 0, 0, 0⟩).1 hq,
    hex,
    (claim_C2 (fun _ => 0) 0 0 wLeps wNus wJets [0, 1] ⟨0, 0, 0, 0⟩
      ⟨0, 0, 0, 0⟩).2.1 hex⟩

/-- C3: fewer than two b-jets, lepton and neutrino multiplicities matching
neither supported pattern, same-sign dilepton charges, or any
mass-minimisation step finding no combination all yield an empty pseudo-top
collection; the functions are total, so no failure is ever raised. -/
theorem claim_C3 (massOf : V4 → ℚ) (wM tM : ℚ) (leptons : List Dressed)
    (nus : List GenP) (jets : List Jet) (bjetIdxs ljetIdxs : List ℕ) :
    (bjetIdxs.length < 2 →
      runCombination massOf wM tM leptons nus jets bjetIdxs ljetIdxs = [])
    ∧ (¬ (leptons.length = 2 ∧ 2 ≤ nus.length) →
        ¬ (leptons.length = 1 ∧ 1 ≤ nus.length) →
        runCombination massOf wM tM leptons nus jets bjetIdxs ljetIdxs = [])
    ∧ (0 < (leptons.getD 0 dressed0).charge * (leptons.getD 1 dressed0).charge
        → dileptonBlock massOf wM tM leptons nus jets bjetIdxs = [])
    ∧ ((selectPair (dlNuCost massOf wM (dlLep1 leptons) (dlLep2 leptons) nus)
          (List.range nus.length) (List.range nus.length)).2 = none →
        dileptonBlock massOf wM tM leptons nus jets bjetIdxs = [])
    ∧ (∀ i j : ℕ,
        (selectPair (dlNuCost massOf wM (dlLep1 leptons) (dlLep2 leptons) nus)
          (List.range nus.length) (List.range nus.length)).2 = some (i, j) →
        (selectPair (wbCost massOf tM jets
          (vadd (dlLep1 leptons).p4 (nus.getD i g0).p4)
          (vadd (dlLep2 leptons).p4 (nus.getD j g0).p4)) bjetIdxs bjetIdxs).2
            = none →
        dileptonBlock massOf wM tM leptons nus jets bjetIdxs = [])
    ∧ ((selectTriple (slCost massOf wM (leptons.getD 0 dressed0) nus jets)
          (List.range nus.length) ljetIdxs).2 = none →
        semilepBlock massOf wM tM leptons nus jets bjetIdxs ljetIdxs = [])
    ∧ (∀ i j1 j2 : ℕ,
        (selectTriple (slCost massOf wM (leptons.getD 0 dressed0) nus jets)
          (List.range nus.length) ljetIdxs).2 = some (i, j1, j2) →
        (selectPair (wbCost massOf tM jets
          (vadd (leptons.getD 0 dressed0).p4 (nus.getD i g0).p4)
          (vadd (jets.getD j1 jet0).p4 (jets.getD j2 jet0).p4))
            bjetIdxs bjetIdxs).2 = none →
        semilepBlock massOf wM tM leptons nus jets bjetIdxs ljetIdxs = [])
    ∧ linkGraph ([] : List GenP) = [] := by
  refine ⟨?_, ?_,
    dileptonBlock_of_samesign massOf wM tM leptons nus jets bjetIdxs,
    dileptonBlock_of_nuNone massOf wM tM leptons nus jets bjetIdxs,
    fun i j => dileptonBlock_of_bNone massOf wM tM leptons nus jets
      bjetIdxs i j,
    semilepBlock_of_wNone massOf wM tM leptons nus jets bjetIdxs ljetIdxs,
    fun i j1 j2 => semilepBlock_of_bNone massOf wM tM leptons nus jets
      bjetIdxs ljetIdxs i j1 j2, rfl⟩
  · intro hb
    unfold runCombination
    rw [if_pos hb]
  · intro hp2 hp1
    unfold runCombination
    by_cases hb : bjetIdxs.length < 2
    · rw [if_pos hb]
    · rw [if_neg hb, if_neg hp2, if_neg hp1]

/-- Witness for C3: one b-jet missing yields an empty collection on a
concrete event. -/
theorem claim_C3_witness :
    ([] : List ℕ).length < 2
    ∧ runCombination (fun _ => 0) 0 0 wLeps wNus wJets [] [] = [] :=
  ⟨by decide,
    (claim_C3 (fun _ => 0) 0 0 wLeps wNus wJets [] []).1 (by decide)⟩

end PseudoTop

namespace PseudoTop

/-- C5: in a successful dilepton combination the ten outputs carry the coded
attributes: tops decayed (status 3) with charge 2/3 of the slot charge and
species code 6 times it, W bosons with the slot charge and code 24 times it,
both b quarks stable with charge minus a third of the first slot charge (the
first charge variable is reused for the second b) and codes 5 times the slot
charges, and the lepton and neutrino legs carried through as stable copies
with unchanged four-momenta. -/
theorem claim_C5 (massOf : V4 → ℚ) (wM tM : ℚ) (leptons : List Dressed)
    (nus : List GenP) (jets : List Jet) (bjetIdxs : List ℕ) (i j k l : ℕ)
    (hq : (leptons.getD 0 dressed0).charge = 1
        ∧ (leptons.getD 1 dressed0).charge = -1
      ∨ (leptons.getD 0 dressed0).charge = -1
        ∧ (leptons.getD 1 dressed0).charge = 1)
    (h1 : (selectPair (dlNuCost massOf wM (dlLep1 leptons) (dlLep2 leptons)
        nus) (List.range nus.length) (List.range nus.length)).2 = some (i, j))
    (h2 : (selectPair (wbCost massOf tM jets
        (vadd (dlLep1 leptons).p4 (nus.getD i g0).p4)
        (vadd (dlLep2 leptons).p4 (nus.getD j g0).p4)) bjetIdxs bjetIdxs).2
          = some (k, l)) :
    (((dileptonBlock massOf wM tM leptons nus jets bjetIdxs).getD 0 g0).status
        = 3
      ∧ ((dileptonBlock massOf wM tM leptons nus jets bjetIdxs).getD 1
          g0).status = 3)
    ∧ (((dileptonBlock massOf wM tM leptons nus jets bjetIdxs).getD 0
          g0).charge = 2 / 3 * ((leptons.getD 0 dressed0).charge : ℚ)
      ∧ ((dileptonBlock massOf wM tM leptons nus jets bjetIdxs).getD 0
          g0).pdgId = (leptons.getD 0 dressed0).charge * 6)
    ∧ (((dileptonBlock massOf wM tM leptons nus jets bjetIdxs).getD 1
          g0).charge = 2 / 3 * ((leptons.getD 1 dressed0).charge : ℚ)
      ∧ ((dileptonBlock massOf wM tM leptons nus jets bjetIdxs).getD 1
          g0).pdgId = (leptons.getD 1 dressed0).charge * 6)
    ∧ (((dileptonBlock massOf wM tM leptons nus jets bjetIdxs).getD 2
          g0).charge = ((leptons.getD 0 dressed0).charge : ℚ)
      ∧ ((dileptonBlock massOf wM tM leptons nus jets bjetIdxs).getD 2
          g0).pdgId = (leptons.getD 0 dressed0).charge * 24
      ∧ ((dileptonBlock massOf wM tM leptons nus jets bjetIdxs).getD 2
          g0).status = 3)
    ∧ (((dileptonBlock massOf wM tM leptons nus jets bjetIdxs).getD 6
          g0).charge = ((leptons.getD 1 dressed0).charge : ℚ)
      ∧ ((dileptonBlock massOf wM tM leptons nus jets bjetIdxs).getD 6
          g0).pdgId = (leptons.getD 1 dressed0).charge * 24
      ∧ ((dileptonBlock massOf wM tM leptons nus jets bjetIdxs).getD 6
          g0).status = 3)
    ∧ (((dileptonBlock massOf wM tM leptons nus jets bjetIdxs).getD 3
          g0).status = 1
      ∧ ((dileptonBlock massOf wM tM leptons nus jets bjetIdxs).getD 3
          g0).charge = -(1 / 3) * ((leptons.getD 0 dressed0).charge : ℚ)
      ∧ ((dileptonBlock massOf wM tM leptons nus jets bjetIdxs).getD 3
          g0).pdgId = (leptons.getD 0 dressed0).charge * 5)
    ∧ (((dileptonBlock massOf wM tM leptons nus jets bjetIdxs).getD 7
          g0).status = 1
      ∧ ((dileptonBlock massOf wM tM leptons nus jets bjetIdxs).getD 7
          g0).charge = -(1 / 3) * ((leptons.getD 0 dressed0).charge : ℚ)
      ∧ ((dileptonBlock massOf wM tM leptons nus jets bjetIdxs).getD 7
          g0).pdgId = (leptons.getD 1 dressed0).charge * 5)
    ∧ (((dileptonBlock massOf wM tM leptons nus jets bjetIdxs).getD 4
          g0).p4 = (dlLep1 leptons).p4
      ∧ ((dileptonBlock massOf wM tM leptons nus jets bjetIdxs).getD 4
          g0).status = 1
      ∧ ((dileptonBlock massOf wM tM leptons nus jets bjetIdxs).getD 8
          g0).p4 = (dlLep2 leptons).p4
      ∧ ((dileptonBlock massOf wM tM leptons nus jets bjetIdxs).getD 8
          g0).status = 1)
    ∧ (((dileptonBlock massOf wM tM leptons nus jets bjetIdxs).getD 5
          g0).p4 = (nus.getD i g0).p4
      ∧ ((dileptonBlock massOf wM tM leptons nus jets bjetIdxs).getD 5
          g0).status = 1
      ∧ ((dileptonBlock massOf wM tM leptons nus jets bjetIdxs).getD 9
          g0).p4 = (nus.getD j g0).p4
      ∧ ((dileptonBlock massOf wM tM leptons nus jets bjetIdxs).getD 9
          g0).status = 1) := by
  have hq2 : ¬ 0 < (leptons.getD 0 dressed0).charge
      * (leptons.getD 1 dressed0).charge := by
    rcases hq with ⟨ha, hb⟩ | ⟨ha, hb⟩ <;> rw [ha, hb] <;> norm_num
  rw [dileptonBlock_eq massOf wM tM leptons nus jets bjetIdxs i j k l
    hq2 h1 h2]
  refine ⟨⟨rfl, rfl⟩, ⟨?_, rfl⟩, ⟨?_, rfl⟩, ⟨rfl, rfl, rfl⟩,
    ⟨rfl, rfl, rfl⟩, ⟨rfl, ?_, rfl⟩, ⟨rfl, ?_, rfl⟩, ⟨rfl, rfl, rfl, rfl⟩,
    ⟨rfl, rfl, rfl, rfl⟩⟩
  · have he : ((dlOutput leptons nus jets i j k l).getD 0 g0).charge
        = (((leptons.getD 0 dressed0).charge * 2 : ℤ) : ℚ) / 3 := rfl
    rw [he]
    push_cast
    ring
  · have he : ((dlOutput leptons nus jets i j k l).getD 1 g0).charge
        = (((leptons.getD 1 dressed0).charge * 2 : ℤ) : ℚ) / 3 := rfl
    rw [he]
    push_cast
    ring
  · have he : ((dlOutput leptons nus jets i j k l).getD 3 g0).charge
        = ((-(leptons.getD 0 dressed0).charge : ℤ) : ℚ) / 3 := rfl
    rw [he]
    push_cast
    ring
  · have he : ((dlOutput leptons nus jets i j k l).getD 7 g0).charge
        = ((-(leptons.getD 0 dressed0).charge : ℤ) : ℚ) / 3 := rfl
    rw [he]
    push_cast
    ring

/-- Witness for C5 at a concrete successful dilepton combination. -/
theorem claim_C5_witness :
    ((wLeps.getD 0 dressed0).charge = 1 ∧ (wLeps.getD 1 dressed0).charge = -1)
    ∧ (selectPair (dlNuCost (fun _ => 0) 0 (dlLep1 wLeps) (dlLep2 wLeps)
        wNus) (List.range wNus.length) (List.range wNus.length)).2
        = some (0, 1)
    ∧ (selectPair (wbCost (fun _ => 0) 0 wJets
        (vadd (dlLep1 wLeps).p4 (wNus.getD 0 g0).p4)
        (vadd (dlLep2 wLeps).p4 (wNus.getD 1 g0).p4)) [0, 1] [0, 1]).2
        = some (0, 1)
    ∧ ((dileptonBlock (fun _ => 0) 0 0 wLeps wNus wJets [0, 1]).getD 0
        g0).status = 3 := by
  have hfun1 : dlNuCost (fun _ => 0) 0 (dlLep1 wLeps) (dlLep2 wLeps) wNus
      = fun _ _ => (0 : ℚ) := by
    funext a b
    simp [dlNuCost]
  have hfun2 : wbCost (fun _ => 0) 0 wJets
      (vadd (dlLep1 wLeps).p4 (wNus.getD 0 g0).p4)
      (vadd (dlLep2 wLeps).p4 (wNus.getD 1 g0).p4) = fun _ _ => (0 : ℚ) := by
    funext a b
    simp [wbCost]
  have h1 : (selectPair (dlNuCost (fun _ => 0) 0 (dlLep1 wLeps)
      (dlLep2 wLeps) wNus) (List.range wNus.length)
        (List.range wNus.length)).2 = some (0, 1) := by
    rw [hfun1]
    decide
  have h2 : (selectPair (wbCost (fun _ => 0) 0 wJets
      (vadd (dlLep1 wLeps).p4 (wNus.getD 0 g0).p4)
      (vadd (dlLep2 wLeps).p4 (wNus.getD 1 g0).p4)) [0, 1] [0, 1]).2
        = some (0, 1) := by
    rw [hfun2]
    decide
  exact ⟨⟨by decide, by decide⟩, h1, h2,
    ((claim_C5 (fun _ => 0) 0 0 wLeps wNus wJets [0, 1] 0 1 0 1
      (Or.inl ⟨by decide, by decide⟩) h1 h2).1).1⟩

end PseudoTop

namespace PseudoTop

/-- C6 counterexample: a cluster with an electron and a muon of exactly equal
pt; the code keeps the last-seen lepton constituent while the claimed rule
(first-seen highest-pt wins) picks the first. -/
theorem claim_C6_counterexample :
    chooseRep cexPt cexPs [0, 1] = some 1
    ∧ claimRepFirst cexPt cexPs [0, 1] = some 0
    ∧ chooseRep cexPt cexPs [0, 1] ≠ claimRepFirst cexPt cexPs [0, 1] :=
  ⟨by decide, by decide, by decide⟩

/-- C6 (amended): for clusters whose lepton constituents have non-NaN pt the
representative is the last-seen highest-pt constituent with absolute species
code 11 or 13 (a later constituent of exactly equal pt replaces an earlier
one); a cluster with no charged-lepton constituent yields no representative
and is not accepted; and the dressed lepton takes its species code and charge
from the representative. -/
theorem claim_C6_amended (ptOf : V4 → DV) (ps : List Cand) (cs : List ℕ)
    (maxEta : ℚ) (cls : List Cluster) (c : Cluster) (r : ℕ)
    (hnan : ∀ i ∈ lepConsts ps cs, ptOf (ps.getD i cand0).p4 ≠ DV.nan) :
    chooseRep ptOf ps cs = lastArgmaxRep ptOf ps cs
    ∧ (chooseRep ptOf ps cs = none ↔ lepConsts ps cs = [])
    ∧ (c ∈ acceptedLepClusters ptOf ps maxEta cls →
        (chooseRep ptOf ps c.constituents).isSome = true)
    ∧ (chooseRep ptOf ps c.constituents = some r →
        (mkDressed ptOf ps c).pdgId = (ps.getD r cand0).pdgId
        ∧ (mkDressed ptOf ps c).charge = (ps.getD r cand0).charge) := by
  refine ⟨chooseRep_eq_lastArgmax ptOf ps cs hnan,
    chooseRep_none_iff ptOf ps cs, ?_, ?_⟩
  · intro hc
    rw [acceptedLepClusters, List.mem_filter] at hc
    have h2 := hc.2
    rw [Bool.and_eq_true] at h2
    exact h2.2
  · intro hr
    constructor
    · simp [mkDressed, hr]
    · simp [mkDressed, hr]

/-- Witness for C6 at the concrete equal-pt cluster. -/
theorem claim_C6_witness :
    (∀ i ∈ lepConsts cexPs [0, 1], cexPt (cexPs.getD i cand0).p4 ≠ DV.nan)
    ∧ chooseRep cexPt cexPs [0, 1] = lastArgmaxRep cexPt cexPs [0, 1] :=
  ⟨by decide,
    (claim_C6_amended cexPt cexPs [0, 1] 0 [] ⟨⟨0, 0, 0, 0⟩, 0, 0, false, []⟩
      0 (by decide)).1⟩

/-- C7: given the clustering guarantees that constituents come from the
supplied inputs and that clusters are pairwise disjoint, no index consumed by
an accepted dressed-lepton cluster enters the jet-clustering input, no such
index appears among the constituents of any produced jet, and each index is
consumed by at most one accepted dressed-lepton cluster. -/
theorem claim_C7 (cfg : Cfg) (kin : Kin)
    (lepCluster jetCluster : List (ℕ × V4) → List Cluster) (ps : List Cand)
    (hsubL : ∀ c ∈ lepCluster (fjLepInputsOf kin.ptOf ps),
      ∀ i ∈ c.constituents, ∃ pr ∈ fjLepInputsOf kin.ptOf ps, pr.1 = i)
    (hsubJ : ∀ c ∈ jetCluster (fjJetInputsOf kin.ptOf kin.pOf ps
        (lepDauIdxsOf kin.ptOf ps cfg.leptonMaxEta
          (lepCluster (fjLepInputsOf kin.ptOf ps))) (bHadronIdxsOf ps)),
      ∀ i ∈ c.constituents, ∃ pr ∈ fjJetInputsOf kin.ptOf kin.pOf ps
        (lepDauIdxsOf kin.ptOf ps cfg.leptonMaxEta
          (lepCluster (fjLepInputsOf kin.ptOf ps))) (bHadronIdxsOf ps),
        pr.1 = i)
    (hdisj : (lepCluster (fjLepInputsOf kin.ptOf ps)).Pairwise
      (fun c d => ∀ i ∈ c.constituents, i ∉ d.constituents)) :
    (∀ i ∈ lepDauIdxsOf kin.ptOf ps cfg.leptonMaxEta
        (lepCluster (fjLepInputsOf kin.ptOf ps)),
      ∀ pr ∈ fjJetInputsOf kin.ptOf kin.pOf ps
        (lepDauIdxsOf kin.ptOf ps cfg.leptonMaxEta
          (lepCluster (fjLepInputsOf kin.ptOf ps))) (bHadronIdxsOf ps),
        pr.1 ≠ i)
    ∧ (∀ i ∈ lepDauIdxsOf kin.ptOf ps cfg.leptonMaxEta
        (lepCluster (fjLepInputsOf kin.ptOf ps)),
      ∀ jet ∈ (produce cfg kin lepCluster jetCluster ps).jets,
        i ∉ jet.constituents)
    ∧ (acceptedLepClusters kin.ptOf ps cfg.leptonMaxEta
        (lepCluster (fjLepInputsOf kin.ptOf ps))).Pairwise
      (fun c d => ∀ i ∈ c.constituents, i ∉ d.constituents) := by
  have hstat : ∀ i ∈ lepDauIdxsOf kin.ptOf ps cfg.leptonMaxEta
      (lepCluster (fjLepInputsOf kin.ptOf ps)),
      (ps.getD i cand0).status = 1 := by
    intro i hi
    obtain ⟨c, hc, hic⟩ := mem_lepDauIdxs kin.ptOf ps cfg.leptonMaxEta
      (lepCluster (fjLepInputsOf kin.ptOf ps)) i hi
    obtain ⟨pr, hpr, hpr1⟩ := hsubL c hc i hic
    have := (mem_fjLepInputs kin.ptOf ps pr hpr).1
    rw [hpr1] at this
    exact mem_leptonIdxs_status ps i this
  have hmain : ∀ i ∈ lepDauIdxsOf kin.ptOf ps cfg.leptonMaxEta
      (lepCluster (fjLepInputsOf kin.ptOf ps)),
      ∀ pr ∈ fjJetInputsOf kin.ptOf kin.pOf ps
        (lepDauIdxsOf kin.ptOf ps cfg.leptonMaxEta
          (lepCluster (fjLepInputsOf kin.ptOf ps))) (bHadronIdxsOf ps),
        pr.1 ≠ i := by
    intro i hi pr hpr heq
    rcases List.mem_append.mp hpr with hm | hg
    · have hcont := (mem_fjJetMainInputs kin.ptOf ps _ pr hm).2.1
      rw [heq] at hcont
      have hmem : List.elem i (lepDauIdxsOf kin.ptOf ps cfg.leptonMaxEta
          (lepCluster (fjLepInputsOf kin.ptOf ps))) = true :=
        List.elem_iff.mpr hi
      have hff : (true : Bool) = false := by
        rw [← hmem]
        exact hcont
      simp at hff
    · have hb := (mem_ghostInputs kin.ptOf kin.pOf ps _ pr hg).1
      rw [heq] at hb
      exact absurd (hstat i hi) (mem_bHadronIdxs_status ps i hb)
  refine ⟨hmain, ?_, ?_⟩
  · intro i hi jet hjet hic
    rw [produce_jets] at hjet
    obtain ⟨c, hcls, hconst⟩ := buildJets_constituents cfg.jetMaxEta
      (bHadronIdxsOf ps) _ jet hjet
    rw [hconst] at hic
    obtain ⟨pr, hpr, hpr1⟩ := hsubJ c hcls i hic
    exact hmain i hi pr hpr hpr1
  · exact List.Pairwise.sublist (List.filter_sublist _) hdisj

/-- Witness for C7 with trivial clustering on an empty event. -/
theorem claim_C7_witness :
    (acceptedLepClusters (fun _ => DV.val 0) [] 0 []).Pairwise
      (fun c d => ∀ i ∈ c.constituents, i ∉ d.constituents) :=
  (claim_C7 ⟨0, 0, 0, 0⟩ ⟨fun _ => DV.val 0, fun _ => 0, fun _ => 0⟩
    (fun _ => []) (fun _ => []) [] (by simp) (by simp) (by simp)).2.2

/-- C8: when no classified neutrino has a NaN transverse momentum, the
emitted neutrino collection is ordered so that no later entry has strictly
greater pt than an earlier one (non-increasing pt); the collection placed in
the output record is the sorted list itself, unchanged by the rest of the
pipeline. -/
theorem claim_C8 (cfg : Cfg) (kin : Kin)
    (lepCluster jetCluster : List (ℕ × V4) → List Cluster) (ps : List Cand)
    (hnan : ∀ x ∈ nuRawOf ps, kin.ptOf x.p4 ≠ DV.nan) :
    ((produce cfg kin lepCluster jetCluster ps).neutrinos).Pairwise
      (fun a b => gtDV (kin.ptOf b.p4) (kin.ptOf a.p4) = false)
    ∧ (produce cfg kin lepCluster jetCluster ps).neutrinos
      = neutrinosOf kin.ptOf ps := by
  constructor
  · rw [produce_neutrinos]
    have htr : ∀ x y z : GenP, kin.ptOf x.p4 ≠ DV.nan →
        kin.ptOf y.p4 ≠ DV.nan → kin.ptOf z.p4 ≠ DV.nan →
        nuLe kin.ptOf x y = true → nuLe kin.ptOf y z = true →
        nuLe kin.ptOf x z = true := by
      intro x y z hx hy hz hxy hyz
      unfold nuLe at hxy hyz ⊢
      rw [Bool.not_eq_true'] at hxy hyz ⊢
      exact gtDV_neg_trans hx hy hz hxy hyz
    have hp := pairwise_sortBy (nuLe kin.ptOf)
      (fun x => kin.ptOf x.p4 ≠ DV.nan) (nuLe_total kin.ptOf) htr
      (nuRawOf ps) hnan
    refine hp.imp ?_
    intro a b hab
    unfold nuLe at hab
    rw [Bool.not_eq_true'] at hab
    exact hab
  · rw [produce_neutrinos]
    rfl

/-- Witness for C8 on a concrete empty event. -/
theorem claim_C8_witness :
    (∀ x ∈ nuRawOf [], (fun _ => DV.val 0) x.p4 ≠ DV.nan)
    ∧ ((produce ⟨0, 0, 0, 0⟩ ⟨fun _ => DV.val 0, fun _ => 0, fun _ => 0⟩
        (fun _ => []) (fun _ => []) []).neutrinos).Pairwise
      (fun a b => gtDV ((fun _ => DV.val 0) b.p4)
        ((fun _ => DV.val 0) a.p4) = false) :=
  ⟨by simp [nuRawOf], (claim_C8 ⟨0, 0, 0, 0⟩
    ⟨fun _ => DV.val 0, fun _ => 0, fun _ => 0⟩ (fun _ => []) (fun _ => [])
    [] (by simp [nuRawOf])).1⟩

/-- C9 counterexample: a lepton candidate with positive-infinite (hence
non-finite) transverse momentum passes the isnan-or-nonpositive filter and
enters the lepton-clustering input, contradicting the claim that every
non-finite pt is excluded. -/
theorem claim_C9_counterexample :
    badPtDV ((fun _ => DV.inf) (c9Ps.getD 1 cand0).p4) = false
    ∧ (1, (⟨1, 0, 0, 1⟩ : V4)) ∈ fjLepInputsOf (fun _ => DV.inf) c9Ps :=
  ⟨by decide, by decide⟩

/-- C9 (amended): every candidate whose transverse momentum is NaN or
non-positive is silently excluded from the lepton-clustering input and from
the jet-clustering input including the b-hadron ghosts; a positive-infinite
pt is not excluded, since the code tests isnan rather than finiteness. -/
theorem claim_C9_amended (ptOf : V4 → DV) (pOf : V4 → ℚ) (ps : List Cand)
    (lepDau bIdxs : List ℕ) (i : ℕ)
    (hbad : badPtDV (ptOf (ps.getD i cand0).p4) = true) :
    (∀ pr ∈ fjLepInputsOf ptOf ps, pr.1 ≠ i)
    ∧ (∀ pr ∈ fjJetInputsOf ptOf pOf ps lepDau bIdxs, pr.1 ≠ i) := by
  constructor
  · intro pr hpr heq
    have hgood := (mem_fjLepInputs ptOf ps pr hpr).2.1
    rw [heq, hbad] at hgood
    exact absurd hgood (by simp)
  · intro pr hpr heq
    rcases List.mem_append.mp hpr with hm | hg
    · have hgood := (mem_fjJetMainInputs ptOf ps lepDau pr hm).2.2
      rw [heq, hbad] at hgood
      exact absurd hgood (by simp)
    · have hgood := (mem_ghostInputs ptOf pOf ps bIdxs pr hg).2
      rw [heq, hbad] at hgood
      exact absurd hgood (by simp)

/-- Witness for C9 at a concrete non-positive pt particle. -/
theorem claim_C9_witness :
    badPtDV ((fun _ => DV.val 0) (c9Ps.getD 1 cand0).p4) = true
    ∧ (∀ pr ∈ fjLepInputsOf (fun _ => DV.val 0) c9Ps, pr.1 ≠ 1) :=
  ⟨by decide, (claim_C9_amended (fun _ => DV.val 0) (fun _ => 0) c9Ps [] []
    1 (by decide)).1⟩

end PseudoTop

